import Mathlib

/-!
Shallow embedding of the multi-source synchronization and deduplication
engine of `src/services/integration.service.ts` (class `IntegrationService`),
together with the data model it manipulates.

Conventions of the embedding:
* Timestamps are natural numbers; each sync invocation receives the current
  clock value `now` (every `new Date()` inside one invocation reads it).
* Remote services and the text-generation model are nondeterministic
  environments, passed in as explicit data (`GmailEnv`, `CalendarEnv`,
  `TasksEnv`, `TeamsEnv`); a remote call that throws is an `Except.error`.
* `JSON.parse` applied to the extracted classifier substring is an external
  library routine; it is passed in as a parameter
  `p : List Char → Option Classification` (`none` models a parse exception).
* Mongo document ids are modelled as naturals drawn from a fresh-id counter
  `DB.nextId`.
* JavaScript string truthiness (`s || d` treats the empty string as absent)
  is modelled by `jsStrO` / `jsStr`.
-/

/-- The character `{` (written via its code point). -/
def lbr : Char := Char.ofNat 123

/-- The character `}` (written via its code point). -/
def rbr : Char := Char.ofNat 125

/-- Priorities of work items and threads. -/
inductive Priority where
  | high
  | medium
  | low
deriving DecidableEq

/-- The `type` discriminator of a work item. -/
inductive ItemType where
  | email
  | calendar
  | task
  | message
deriving DecidableEq

/-- Result shape of `classifyAndPrioritizeEmail`. -/
structure Classification where
  isWork : Bool
  priority : Priority
  reason : Option String := none
deriving DecidableEq

/-- Outcome of the text-generation call chain
(`model.generateContent` / `result.response` / `response.text()`):
either some step threw, or it produced a response text. -/
inductive GenOutcome where
  | err
  | ok (text : List Char)
deriving DecidableEq

/-- JavaScript string truthiness: `some ""` and `none` are both falsy. -/
def jsStrO : Option String → Option String
  | some s => if s = "" then none else some s
  | none => none

/-- JavaScript `o || d` for an optional string `o` and a default `d`. -/
def jsStr (o : Option String) (d : String) : String :=
  (jsStrO o).getD d

/-- Template-literal interpolation of a possibly-undefined string. -/
def jsTemplate (o : Option String) : String :=
  o.getD "undefined"

/-- The fallback judgment returned on any classification failure. -/
def fallbackClassification : Classification :=
  { isWork := true, priority := Priority.medium }

/-- Embedding of `text.match(/\x7b[\s\S]*\x7d/)`: the JavaScript regex is
leftmost-greedy, so a match (when one exists) runs from the first `lbr`
of the text to the last `rbr` of the text. -/
def extractJsonMatch (text : List Char) : Option (List Char) :=
  let l := text.dropWhile (fun c => decide (c ≠ lbr))
  let r := (l.reverse.dropWhile (fun c => decide (c ≠ rbr))).reverse
  if r.isEmpty then none else some r

/-- Scanner for `firstBalancedBrace`: consumes characters keeping a brace
depth, returning the accumulated balanced group when depth returns to zero. -/
def balancedScan : List Char → Nat → List Char → Option (List Char)
  | [], _, _ => none
  | c :: rest, depth, acc =>
    if c = lbr then balancedScan rest (depth + 1) (c :: acc)
    else if c = rbr then
      if depth = 1 then some ((c :: acc).reverse)
      else balancedScan rest (depth - 1) (c :: acc)
    else balancedScan rest depth (c :: acc)

/-- Modelled from the spec: the spec describes the classifier parse step as
"extracting the first balanced `\x7b...\x7d` substring" of the response text.
This definition follows those words (it is the comparison point for the
refinement claim about the parse step; the code's actual extraction is
`extractJsonMatch`). -/
def firstBalancedBrace (text : List Char) : Option (List Char) :=
  match text.dropWhile (fun c => decide (c ≠ lbr)) with
  | [] => none
  | c :: rest => balancedScan rest 1 [c]

/-- Embedding of `IntegrationService.classifyAndPrioritizeEmail`: runs the
generation call (outcome `g`), extracts the regex match from the response
text, and decodes it with the JSON parser `p`; every failure path (generation
error, no match, parse exception) yields the fallback judgment. -/
def classifyAndPrioritizeEmail (p : List Char → Option Classification) :
    GenOutcome → Classification
  | GenOutcome.err => fallbackClassification
  | GenOutcome.ok text =>
    match extractJsonMatch text with
    | some s =>
      match p s with
      | some r => r
      | none => fallbackClassification
    | none => fallbackClassification

/-- Provider-specific `metadata` bag of a work item; only the fields the
sync engine actually writes are modelled. -/
structure Metadata where
  googleId : Option String := none
  microsoftId : Option String := none
  threadId : Option String := none
  aiReason : Option String := none
  status : Option String := none
  location : Option String := none
  listId : Option String := none
  chatId : Option String := none
  webUrl : Option String := none
deriving DecidableEq

/-- A stored `WorkItem` document. -/
structure WorkItem where
  id : Nat
  userId : String
  type : ItemType
  title : String
  source : String
  timestamp : Nat
  preview : String
  isRead : Bool
  priority : Priority
  threadId : Nat
  metadata : Metadata
deriving DecidableEq

/-- A stored `WorkThread` document. -/
structure WorkThread where
  id : Nat
  userId : String
  title : String
  description : String
  priority : Priority
  progress : Nat
  lastActivity : Nat
  itemIds : List Nat
deriving DecidableEq

/-- Stored integration credentials for one provider. -/
structure Creds where
  accessToken : Option String := none
  refreshToken : Option String := none
  lastSync : Option Nat := none
deriving DecidableEq

/-- The `integrations` sub-document of a user. -/
structure Integrations where
  google : Option Creds := none
  microsoft : Option Creds := none
deriving DecidableEq

/-- A stored user document (only the parts the sync engine reads/writes). -/
structure User where
  id : String
  integrations : Option Integrations := none
deriving DecidableEq

/-- The local persistence state: user, work-item and thread collections,
plus a fresh-id counter for newly inserted documents. -/
structure DB where
  users : List User := []
  items : List WorkItem := []
  threads : List WorkThread := []
  nextId : Nat := 0
deriving DecidableEq

/-- `UserModel.findById`. -/
def findUser (db : DB) (uid : String) : Option User :=
  db.users.find? (fun u => decide (u.id = uid))

/-- `user.integrations?.google?.accessToken`. -/
def googleAccessTokenOf (u : User) : Option String :=
  ((u.integrations.bind fun i => i.google).bind fun g => g.accessToken)

/-- `user.integrations?.microsoft?.accessToken`. -/
def microsoftAccessTokenOf (u : User) : Option String :=
  ((u.integrations.bind fun i => i.microsoft).bind fun m => m.accessToken)

/-- `overrideAccessToken || storedToken` followed by the `if (!accessToken)`
falsiness test: the result is `none` exactly when the code returns early. -/
def resolveToken (ov stored : Option String) : Option String :=
  match jsStrO ov with
  | some s => some s
  | none => jsStrO stored

/-- The dedup gate for Google providers:
`WorkItemModel.findOne(userId, metadata.googleId) !== null`. -/
def existsGoogleItem (db : DB) (uid : String) (gid : String) : Bool :=
  db.items.any (fun it => decide (it.userId = uid ∧ it.metadata.googleId = some gid))

/-- The dedup gate for Teams:
`WorkItemModel.findOne(userId, metadata.microsoftId) !== null`. -/
def existsMicrosoftItem (db : DB) (uid : String) (mid : String) : Bool :=
  db.items.any (fun it => decide (it.userId = uid ∧ it.metadata.microsoftId = some mid))

/-- Embedding of `IntegrationService.getOrCreateExternalThread`: look up the
per-user catch-all thread by `(userId, title = "External Imports")`, lazily
creating it; returns its id. -/
def getOrCreateExternalThread (db : DB) (uid : String) (now : Nat) : Nat × DB :=
  match db.threads.find? (fun t => decide (t.userId = uid ∧ t.title = "External Imports")) with
  | some t => (t.id, db)
  | none =>
    let t : WorkThread :=
      { id := db.nextId, userId := uid, title := "External Imports"
        description := "Automatically imported items from Google Workspace and other integrations."
        priority := Priority.medium, progress := 0, lastActivity := now, itemIds := [] }
    (t.id, { db with threads := db.threads ++ [t], nextId := db.nextId + 1 })

/-- Field bundle passed to `WorkItemService.createItem` (everything of a
work item except its id, which the store assigns). -/
structure NewItem where
  userId : String
  type : ItemType
  title : String
  source : String
  timestamp : Nat
  preview : String
  isRead : Bool
  priority : Priority
  threadId : Nat
  metadata : Metadata
deriving DecidableEq

/-- Modelled from the spec: `WorkItemService.createItem` lives in
`src/services/workitem.service.ts`, which is not part of the corpus; per
spec §6 the persistence layer provides "insert", so it is modelled as
inserting a new `WorkItem` with the given fields and a fresh id, returning
the created document. -/
def createItem (db : DB) (n : NewItem) : WorkItem × DB :=
  let it : WorkItem :=
    { id := db.nextId, userId := n.userId, type := n.type, title := n.title
      source := n.source, timestamp := n.timestamp, preview := n.preview
      isRead := n.isRead, priority := n.priority, threadId := n.threadId
      metadata := n.metadata }
  (it, { db with items := db.items ++ [it], nextId := db.nextId + 1 })

/-- Embedding of the `WorkThreadModel.findByIdAndUpdate` call made after each
creation: `$addToSet` the item id into `itemIds` (append only when absent),
set `lastActivity` to now, and set `priority` to high when `toHigh` (the
spread `...(analysis.priority === high ? priority: high : nothing)`). -/
def workThreadFindByIdAndUpdate (db : DB) (tid : Nat) (itemId : Nat) (now : Nat)
    (toHigh : Bool) : DB :=
  { db with threads := db.threads.map (fun t =>
      if t.id = tid then
        { t with
          itemIds := if itemId ∈ t.itemIds then t.itemIds else t.itemIds ++ [itemId]
          lastActivity := now
          priority := if toHigh then Priority.high else t.priority }
      else t) }

/-- The creation block shared verbatim by all four sync loops: resolve
the import thread, materialize the work item (built by `mk` from the resolved
thread id), then update the thread (`$addToSet` + `lastActivity` + optional
priority escalation). Returns the created item, the thread id, and the new
state. -/
def ingestItem (db : DB) (uid : String) (now : Nat) (mk : Nat → NewItem)
    (toHigh : Bool) : WorkItem × Nat × DB :=
  let r1 := getOrCreateExternalThread db uid now
  let r2 := createItem r1.2 (mk r1.1)
  (r2.1, r1.1, workThreadFindByIdAndUpdate r2.2 r1.1 r2.1.id now toHigh)

/-- The user-document update performed by `integrations.google.lastSync =
new Date()`: only the google `lastSync` field changes (a no-op when the
google integration object is absent). -/
def setGoogleLastSync (u : User) (now : Nat) : User :=
  match u.integrations with
  | some ig =>
    match ig.google with
    | some g => { u with integrations := some { ig with google := some { g with lastSync := some now } } }
    | none => u
  | none => u

/-- The user-document update performed by the `updateOne` setting
`integrations.microsoft.lastSync`: only that field changes. -/
def setMicrosoftLastSync (u : User) (now : Nat) : User :=
  match u.integrations with
  | some ig =>
    match ig.microsoft with
    | some m => { u with integrations := some { ig with microsoft := some { m with lastSync := some now } } }
    | none => u
  | none => u

/-- `integrations.google.lastSync = new Date(); user.save()`. -/
def stampGoogleLastSync (db : DB) (uid : String) (now : Nat) : DB :=
  { db with users := db.users.map (fun u =>
      if u.id = uid then setGoogleLastSync u now else u) }

/-- `UserModel.updateOne(set integrations.microsoft.lastSync)`. -/
def stampMicrosoftLastSync (db : DB) (uid : String) (now : Nat) : DB :=
  { db with users := db.users.map (fun u =>
      if u.id = uid then setMicrosoftLastSync u now else u) }

/-- A Gmail message stub from `gmail.users.messages.list`. -/
structure GmailMsg where
  id : String
deriving DecidableEq

/-- The fields read from `gmail.users.messages.get`. -/
structure GmailDetails where
  subject : Option String := none
  sender : Option String := none
  internalDate : Nat := 0
  snippet : Option String := none
  threadId : Option String := none
deriving DecidableEq

/-- The Gmail remote environment of one sync invocation: the (fallible)
message-list call, the (fallible) per-message details call, and the
generation outcome of the classifier call for each message. -/
structure GmailEnv where
  listRes : Except Unit (Option (List GmailMsg))
  details : String → Except Unit GmailDetails
  gen : String → GenOutcome

/-- The `WorkItem` fields passed to `createItem` for a Gmail message. -/
def gmailNewItem (uid : String) (msg : GmailMsg) (d : GmailDetails)
    (analysis : Classification) (tid : Nat) : NewItem :=
  { userId := uid, type := ItemType.email
    title := jsStr d.subject "No Subject"
    source := "Gmail: " ++ jsStr d.sender "Unknown"
    timestamp := d.internalDate
    preview := jsStr d.snippet ""
    isRead := false, priority := analysis.priority, threadId := tid
    metadata := { googleId := some msg.id, threadId := d.threadId
                  aiReason := analysis.reason } }

/-- The candidate loop of `syncGmail`. An `Except.error` from the details
call aborts the whole cycle (the enclosing catch), keeping the state as
already committed; otherwise: dedup-skip, classify, skip non-work, ingest. -/
def gmailLoop (p : List Char → Option Classification) (env : GmailEnv) (now : Nat)
    (uid : String) : List GmailMsg → Nat → DB → Option Nat × DB
  | [], count, db => (some count, db)
  | msg :: rest, count, db =>
    match env.details msg.id with
    | Except.error _ => (none, db)
    | Except.ok d =>
      if existsGoogleItem db uid msg.id then gmailLoop p env now uid rest count db
      else
        let analysis := classifyAndPrioritizeEmail p (env.gen msg.id)
        if analysis.isWork then
          let r := ingestItem db uid now (gmailNewItem uid msg d analysis)
            (decide (analysis.priority = Priority.high))
          gmailLoop p env now uid rest (count + 1) r.2.2
        else gmailLoop p env now uid rest count db

/-- Embedding of `IntegrationService.syncGmail`. -/
def syncGmail (p : List Char → Option Classification) (env : GmailEnv) (now : Nat)
    (uid : String) (ov : Option String) (db : DB) : Nat × DB :=
  match findUser db uid with
  | none => (0, db)
  | some user =>
    match resolveToken ov (googleAccessTokenOf user) with
    | none => (0, db)
    | some _ =>
      match env.listRes with
      | Except.error _ => (0, db)
      | Except.ok msgsO =>
        let r := gmailLoop p env now uid (msgsO.getD []) 0 db
        match r.1 with
        | none => (0, r.2)
        | some count =>
          if (user.integrations.bind fun i => i.google).isSome
          then (count, stampGoogleLastSync r.2 uid now)
          else (count, r.2)

/-- The fields read from one entry of `calendar.events.list`. `startTs`
abstracts `new Date(event.start?.dateTime || event.start?.date || '')`. -/
structure CalEvent where
  id : String
  summary : Option String := none
  startTs : Nat := 0
  description : Option String := none
  status : Option String := none
  location : Option String := none
deriving DecidableEq

/-- The Calendar remote environment: the (fallible) events-list call. -/
structure CalendarEnv where
  listRes : Except Unit (Option (List CalEvent))

/-- The `WorkItem` fields passed to `createItem` for a calendar event. -/
def calendarNewItem (uid : String) (e : CalEvent) (tid : Nat) : NewItem :=
  { userId := uid, type := ItemType.calendar
    title := jsStr e.summary "Meeting"
    source := "Google Calendar"
    timestamp := e.startTs
    preview := jsStr e.description ""
    isRead := false, priority := Priority.medium, threadId := tid
    metadata := { googleId := some e.id, status := e.status
                  location := e.location } }

/-- The candidate loop of `syncCalendar`: dedup-skip or ingest with fixed
`medium` priority; no fallible step occurs inside the loop. -/
def calendarLoop (now : Nat) (uid : String) : List CalEvent → Nat → DB → Nat × DB
  | [], count, db => (count, db)
  | e :: rest, count, db =>
    if existsGoogleItem db uid e.id then calendarLoop now uid rest count db
    else
      let r := ingestItem db uid now (calendarNewItem uid e) false
      calendarLoop now uid rest (count + 1) r.2.2

/-- Embedding of `IntegrationService.syncCalendar`. Note: it returns the
count directly after the loop and never touches `lastSync`. -/
def syncCalendar (env : CalendarEnv) (now : Nat) (uid : String) (ov : Option String)
    (db : DB) : Nat × DB :=
  match findUser db uid with
  | none => (0, db)
  | some user =>
    match resolveToken ov (googleAccessTokenOf user) with
    | none => (0, db)
    | some _ =>
      match env.listRes with
      | Except.error _ => (0, db)
      | Except.ok evO => calendarLoop now uid (evO.getD []) 0 db

/-- A task list stub from `tasks.tasklists.list`. -/
structure TaskList where
  id : String
  title : Option String := none
deriving DecidableEq

/-- The fields read from one entry of `tasks.tasks.list`. `due` abstracts
`task.due ? new Date(task.due) : new Date()` (absent means falsy). -/
structure GTask where
  id : String
  title : Option String := none
  due : Option Nat := none
  notes : Option String := none
  status : Option String := none
deriving DecidableEq

/-- The Tasks remote environment: the (fallible) task-lists call and the
(fallible) per-list tasks call. -/
structure TasksEnv where
  listsRes : Except Unit (Option (List TaskList))
  tasksOf : String → Except Unit (Option (List GTask))

/-- The `WorkItem` fields passed to `createItem` for a task. -/
def taskNewItem (uid : String) (list : TaskList) (task : GTask) (now : Nat)
    (tid : Nat) : NewItem :=
  { userId := uid, type := ItemType.task
    title := jsStr task.title "Untitled Task"
    source := "Google Tasks: " ++ jsTemplate list.title
    timestamp := task.due.getD now
    preview := jsStr task.notes ""
    isRead := false, priority := Priority.medium, threadId := tid
    metadata := { googleId := some task.id, listId := some list.id
                  status := task.status } }

/-- The inner candidate loop of `syncTasks` over the tasks of one list. -/
def tasksInnerLoop (now : Nat) (uid : String) (list : TaskList) :
    List GTask → Nat → DB → Nat × DB
  | [], count, db => (count, db)
  | task :: rest, count, db =>
    if existsGoogleItem db uid task.id then tasksInnerLoop now uid list rest count db
    else
      let r := ingestItem db uid now (taskNewItem uid list task now) false
      tasksInnerLoop now uid list rest (count + 1) r.2.2

/-- The outer loop of `syncTasks` over task lists; a failing per-list tasks
call aborts the whole cycle (the enclosing catch), keeping committed state. -/
def tasksOuterLoop (env : TasksEnv) (now : Nat) (uid : String) :
    List TaskList → Nat → DB → Option Nat × DB
  | [], count, db => (some count, db)
  | list :: rest, count, db =>
    match env.tasksOf list.id with
    | Except.error _ => (none, db)
    | Except.ok tasksO =>
      let r := tasksInnerLoop now uid list (tasksO.getD []) count db
      tasksOuterLoop env now uid rest r.1 r.2

/-- Embedding of `IntegrationService.syncTasks`. Note: it returns the count
directly after the loops and never touches `lastSync`. -/
def syncTasks (env : TasksEnv) (now : Nat) (uid : String) (ov : Option String)
    (db : DB) : Nat × DB :=
  match findUser db uid with
  | none => (0, db)
  | some user =>
    match resolveToken ov (googleAccessTokenOf user) with
    | none => (0, db)
    | some _ =>
      match env.listsRes with
      | Except.error _ => (0, db)
      | Except.ok listsO =>
        let r := tasksOuterLoop env now uid (listsO.getD []) 0 db
        match r.1 with
        | none => (0, r.2)
        | some count => (count, r.2)

/-- `lastMessagePreview.body` of a Teams chat. -/
structure TeamsBody where
  content : Option String := none
deriving DecidableEq

/-- `lastMessagePreview` of a Teams chat. `createdDateTime` abstracts
`new Date(lastMessage.createdDateTime || new Date())`. -/
structure TeamsPreview where
  id : String
  body : Option TeamsBody := none
  createdDateTime : Option Nat := none
  fromDisplayName : Option String := none
deriving DecidableEq

/-- One chat entry of the Microsoft Graph chats response. -/
structure TeamsChat where
  id : String
  topic : Option String := none
  chatType : String := ""
  webUrl : Option String := none
  lastMessagePreview : Option TeamsPreview := none
deriving DecidableEq

/-- Outcome of the Graph fetch: network error (fetch threw), non-success
HTTP status, a throwing `response.json()`, or a decoded body whose `value`
may be absent. -/
inductive TeamsFetchRes where
  | netErr
  | notOk (status : Nat)
  | jsonErr
  | ok (chats : Option (List TeamsChat))

/-- The Teams remote environment. -/
structure TeamsEnv where
  fetch : TeamsFetchRes

/-- The guard `!lastMessage || !lastMessage.body || !lastMessage.body.content`
(truthiness: an empty content string is also dropped); on success returns the
preview and its content. -/
def teamsPreviewContent (chat : TeamsChat) : Option (TeamsPreview × String) :=
  match chat.lastMessagePreview with
  | none => none
  | some lm =>
    match lm.body with
    | none => none
    | some b =>
      match b.content with
      | none => none
      | some s => if s = "" then none else some (lm, s)

/-- Title resolution of `syncTeams`: truthy `chat.topic`, else the sender
display name for one-on-one chats, else "Group Chat". -/
def teamsTitle (chat : TeamsChat) (lm : TeamsPreview) : String :=
  match jsStrO chat.topic with
  | some t => t
  | none =>
    if chat.chatType = "oneOnOne" then jsStr lm.fromDisplayName "Teams Chat"
    else "Group Chat"

/-- The `WorkItem` fields passed to `createItem` for a Teams chat message. -/
def teamsNewItem (uid : String) (chat : TeamsChat) (lm : TeamsPreview)
    (content : String) (now : Nat) (tid : Nat) : NewItem :=
  { userId := uid, type := ItemType.message
    title := teamsTitle chat lm
    source := "Microsoft Teams"
    timestamp := lm.createdDateTime.getD now
    preview := content
    isRead := false, priority := Priority.medium, threadId := tid
    metadata := { microsoftId := some lm.id, chatId := some chat.id
                  webUrl := chat.webUrl } }

/-- The candidate loop of `syncTeams`: drop preview-less chats, dedup-skip
by `metadata.microsoftId`, otherwise ingest with fixed `medium` priority. -/
def teamsLoop (now : Nat) (uid : String) : List TeamsChat → Nat → DB → Nat × DB
  | [], count, db => (count, db)
  | chat :: rest, count, db =>
    match teamsPreviewContent chat with
    | none => teamsLoop now uid rest count db
    | some (lm, content) =>
      if existsMicrosoftItem db uid lm.id then teamsLoop now uid rest count db
      else
        let r := ingestItem db uid now (teamsNewItem uid chat lm content now) false
        teamsLoop now uid rest (count + 1) r.2.2

/-- Embedding of `IntegrationService.syncTeams`. Every non-success fetch
outcome ends the cycle with 0 (the 401 branch returns directly, the others
throw into the enclosing catch). -/
def syncTeams (env : TeamsEnv) (now : Nat) (uid : String) (ov : Option String)
    (db : DB) : Nat × DB :=
  match findUser db uid with
  | none => (0, db)
  | some user =>
    match resolveToken ov (microsoftAccessTokenOf user) with
    | none => (0, db)
    | some _ =>
      match env.fetch with
      | TeamsFetchRes.netErr => (0, db)
      | TeamsFetchRes.notOk _ => (0, db)
      | TeamsFetchRes.jsonErr => (0, db)
      | TeamsFetchRes.ok chatsO =>
        let r := teamsLoop now uid (chatsO.getD []) 0 db
        if (user.integrations.bind fun i => i.microsoft).isSome
        then (r.1, stampMicrosoftLastSync r.2 uid now)
        else r

/-- `WorkThreadModel.findById`: first thread with the given id. -/
def getThreadById (db : DB) (tid : Nat) : Option WorkThread :=
  db.threads.find? (fun t => decide (t.id = tid))

/-- Well-formedness of the fresh-id counter with respect to thread item
lists: every id recorded in some thread's `itemIds` is below `nextId`
(so a freshly created work item's id is never already in a thread). -/
def FreshIds (db : DB) : Prop :=
  ∀ t ∈ db.threads, ∀ x ∈ t.itemIds, x < db.nextId

/-- Two work items do not collide on a remote identifier: if they belong to
the same user, they agree on no present `googleId` and no present
`microsoftId`. -/
def NoIdClash (a b : WorkItem) : Prop :=
  a.userId = b.userId →
    (a.metadata.googleId.isSome → a.metadata.googleId ≠ b.metadata.googleId) ∧
    (a.metadata.microsoftId.isSome → a.metadata.microsoftId ≠ b.metadata.microsoftId)

/-- The `(userId, provider-native-id)` uniqueness invariant over the stored
work items. -/
def UniqueRemoteIds (db : DB) : Prop :=
  db.items.Pairwise NoIdClash

/-- Thread priorities are never downgraded from `db` to `db'`: every thread
present before is present after, with either the same priority or `high`. -/
def threadPriMono (db db' : DB) : Prop :=
  ∀ tid t, getThreadById db tid = some t →
    ∃ t', getThreadById db' tid = some t' ∧
      (t'.priority = t.priority ∨ t'.priority = Priority.high)

/-- Relation between the state before and after a candidate loop: items only
grow by appending, users are untouched, thread priorities only escalate, and
fresh-id well-formedness is preserved. -/
structure DBStep (db db' : DB) : Prop where
  items_ext : ∃ new, db'.items = db.items ++ new
  users_eq : db'.users = db.users
  thread_pri : threadPriMono db db'
  fresh : FreshIds db → FreshIds db'

/-- One sync invocation with all of its inputs (for sequencing syncs). -/
inductive SyncCall where
  | gmail (p : List Char → Option Classification) (env : GmailEnv) (now : Nat)
      (uid : String) (ov : Option String)
  | calendar (env : CalendarEnv) (now : Nat) (uid : String) (ov : Option String)
  | tasks (env : TasksEnv) (now : Nat) (uid : String) (ov : Option String)
  | teams (env : TeamsEnv) (now : Nat) (uid : String) (ov : Option String)

/-- Execute one sync invocation, keeping the resulting state. -/
def runCall : SyncCall → DB → DB
  | SyncCall.gmail p env now uid ov, db => (syncGmail p env now uid ov db).2
  | SyncCall.calendar env now uid ov, db => (syncCalendar env now uid ov db).2
  | SyncCall.tasks env now uid ov, db => (syncTasks env now uid ov db).2
  | SyncCall.teams env now uid ov, db => (syncTeams env now uid ov db).2

/-- Execute a sequence of sync invocations, sequentially. -/
def runCalls (calls : List SyncCall) (db : DB) : DB :=
  calls.foldl (fun d c => runCall c d) db

/-- A classifier response text used in concrete scenarios: a balanced JSON
object followed by trailing text that contains a closing brace. -/
def respTrailing : List Char := [lbr, 'x', rbr, ' ', 'y', rbr]

/-- A JSON parser used in concrete scenarios: decodes exactly the object
`(lbr)x(rbr)` (as a non-work low-priority judgment), fails on anything
else. -/
def parse0 : List Char → Option Classification := fun s =>
  if s = [lbr, 'x', rbr] then some { isWork := false, priority := Priority.low }
  else none

/-- A user with both integrations connected, used in concrete scenarios. -/
def user0 : User :=
  { id := "u"
    integrations := some
      { google := some { accessToken := some "tok", lastSync := some 5 }
        microsoft := some { accessToken := some "mtok", lastSync := some 5 } } }

/-- A store holding just `user0`, used in concrete scenarios. -/
def db0 : DB := { users := [user0] }

/-- A Calendar environment returning two unseen events. -/
def calEnv0 : CalendarEnv :=
  { listRes := Except.ok (some [{ id := "e1" }, { id := "e2" }]) }

/-- A Gmail environment with two messages whose details call fails on the
second message, and whose classifier always answers work/high. -/
def gmailEnv0 : GmailEnv :=
  { listRes := Except.ok (some [{ id := "m1" }, { id := "m2" }])
    details := fun i =>
      if i = "m2" then Except.error ()
      else Except.ok { subject := some "Hello", internalDate := 3 }
    gen := fun _ => GenOutcome.ok [lbr, 'x', rbr] }

/-- A parser answering work/high on the object `(lbr)x(rbr)`. -/
def parseWork : List Char → Option Classification := fun s =>
  if s = [lbr, 'x', rbr] then some { isWork := true, priority := Priority.high }
  else none

/-- A Teams environment returning one chat without a message preview. -/
def teamsEnv0 : TeamsEnv :=
  { fetch := TeamsFetchRes.ok (some [{ id := "c1" }]) }

/-- A Tasks environment with one list whose tasks call fails. -/
def tasksEnv0 : TasksEnv :=
  { listsRes := Except.ok (some [{ id := "l1" }])
    tasksOf := fun _ => Except.error () }

/-- An already-existing empty "External Imports" thread for `user0`. -/
def thread0 : WorkThread :=
  { id := 0, userId := "u", title := "External Imports", description := ""
    priority := Priority.medium, progress := 0, lastActivity := 0, itemIds := [] }

/-- A store holding `user0` and `thread0`. -/
def db1t : DB := { users := [user0], threads := [thread0], nextId := 1 }

/-- A user with no integration credentials at all. -/
def userNoTok : User := { id := "v" }

/-- A store holding only the credential-less user. -/
def dbNoTok : DB := { users := [userNoTok] }

/-- A Teams chat without any `lastMessagePreview`. -/
def chatNoPreview : TeamsChat := { id := "c1" }

/-- A Gmail environment with one message and no failures. -/
def gmailEnvOk : GmailEnv :=
  { listRes := Except.ok (some [{ id := "m1" }])
    details := fun _ => Except.ok { subject := some "Hello", internalDate := 3 }
    gen := fun _ => GenOutcome.ok [lbr, 'x', rbr] }

/-- A Tasks environment with one list holding one task, no failures. -/
def tasksEnvOk : TasksEnv :=
  { listsRes := Except.ok (some [{ id := "l1" }])
    tasksOf := fun _ => Except.ok (some [{ id := "t1" }]) }

/-- A Calendar environment whose list call fails. -/
def calEnvErr : CalendarEnv := { listRes := Except.error () }

/-- Replace the user collection of a state (used to factor the fact that
candidate loops neither read nor write users). -/
def withUsers (db : DB) (us : List User) : DB :=
  { db with users := us }

/-- A Teams environment whose fetch got a non-success HTTP status. -/
def teamsEnvBad : TeamsEnv := { fetch := TeamsFetchRes.notOk 500 }

lemma dropWhile_append_of_forall {α} (p : α → Bool) (l1 l2 : List α)
    (h : ∀ x ∈ l1, p x = true) :
    (l1 ++ l2).dropWhile p = l2.dropWhile p := by
  induction l1 with
  | nil => rfl
  | cons a t ih =>
    rw [List.cons_append, List.dropWhile_cons, h a (by simp)]
    exact ih fun x hx => h x (by simp [hx])

/-- C4: `classifyAndPrioritizeEmail` never raises (its embedding is a total
function into `Classification`), and on each failure path — the generation
call throwing, the response containing no regex match, or the extracted
substring failing to decode — the result is exactly the fallback judgment
`isWork = true, priority = medium`. -/
theorem classify_fallback_on_failure (p : List Char → Option Classification) :
    (classifyAndPrioritizeEmail p GenOutcome.err = fallbackClassification) ∧
    (∀ text, extractJsonMatch text = none →
      classifyAndPrioritizeEmail p (GenOutcome.ok text) = fallbackClassification) ∧
    (∀ text s, extractJsonMatch text = some s → p s = none →
      classifyAndPrioritizeEmail p (GenOutcome.ok text) = fallbackClassification) := by
  refine ⟨rfl, ?_, ?_⟩
  · intro text h
    simp [classifyAndPrioritizeEmail, h]
  · intro text s h hp
    simp [classifyAndPrioritizeEmail, h, hp]

theorem classify_fallback_on_failure_witness :
    extractJsonMatch [] = none ∧
    classifyAndPrioritizeEmail parse0 (GenOutcome.ok []) = fallbackClassification ∧
    extractJsonMatch respTrailing = some [lbr, 'x', rbr, ' ', 'y', rbr] ∧
    parse0 [lbr, 'x', rbr, ' ', 'y', rbr] = none ∧
    classifyAndPrioritizeEmail parse0 (GenOutcome.ok respTrailing) = fallbackClassification :=
  ⟨by decide, (classify_fallback_on_failure parse0).2.1 [] (by decide),
   by decide, by decide,
   (classify_fallback_on_failure parse0).2.2 respTrailing [lbr, 'x', rbr, ' ', 'y', rbr]
     (by decide) (by decide)⟩

/-- C6 counterexample: on the response `(lbr)x(rbr) y(rbr)` the code's
extraction is not the first balanced brace group: the first balanced group
`(lbr)x(rbr)` decodes (under `parse0`) to a non-work judgment, but the
classifier returns the fallback, because its greedy regex match also
swallows the trailing text up to the last closing brace and that larger
substring fails to decode. Trailing text after the first balanced object
therefore does affect the decoded result, contradicting the claim. -/
theorem classify_not_first_balanced_counterexample :
    extractJsonMatch respTrailing ≠ firstBalancedBrace respTrailing ∧
    firstBalancedBrace respTrailing = some [lbr, 'x', rbr] ∧
    parse0 [lbr, 'x', rbr] = some { isWork := false, priority := Priority.low } ∧
    classifyAndPrioritizeEmail parse0 (GenOutcome.ok [lbr, 'x', rbr])
      = { isWork := false, priority := Priority.low } ∧
    classifyAndPrioritizeEmail parse0 (GenOutcome.ok respTrailing)
      = fallbackClassification ∧
    fallbackClassification ≠ { isWork := false, priority := Priority.low } := by
  decide

/-- C6 amended: the classifier parses the response by extracting the
substring running from the first opening brace to the last closing brace
(the greedy regex match) and decoding that substring; trailing text after
the first balanced object is included in the extracted substring (so it can
change the decoded result, typically forcing the fallback). -/
theorem classify_extracts_greedy_brace_span (p : List Char → Option Classification)
    (pre a post : List Char) (hpre : lbr ∉ pre) (hpost : rbr ∉ post) :
    extractJsonMatch (pre ++ lbr :: a ++ rbr :: post) = some (lbr :: a ++ [rbr]) ∧
    classifyAndPrioritizeEmail p (GenOutcome.ok (pre ++ lbr :: a ++ rbr :: post))
      = (p (lbr :: a ++ [rbr])).getD fallbackClassification := by
  have hshape : pre ++ lbr :: a ++ rbr :: post = pre ++ (lbr :: (a ++ rbr :: post)) := by
    simp [List.append_assoc]
  have h1 : (pre ++ lbr :: a ++ rbr :: post).dropWhile (fun c => decide (c ≠ lbr))
      = lbr :: (a ++ rbr :: post) := by
    rw [hshape, dropWhile_append_of_forall]
    · rw [List.dropWhile_cons]
      simp
    · intro x hx
      simp only [decide_eq_true_eq]
      exact fun h => hpre (h ▸ hx)
  have h2 : (lbr :: (a ++ rbr :: post)).reverse
      = post.reverse ++ rbr :: (a.reverse ++ [lbr]) := by
    simp [List.reverse_cons, List.reverse_append, List.append_assoc]
  have h3 : (post.reverse ++ rbr :: (a.reverse ++ [lbr])).dropWhile
        (fun c => decide (c ≠ rbr))
      = rbr :: (a.reverse ++ [lbr]) := by
    rw [dropWhile_append_of_forall]
    · rw [List.dropWhile_cons]
      simp
    · intro x hx
      simp only [decide_eq_true_eq]
      exact fun h => hpost (List.mem_reverse.mp (h ▸ hx))
  have h4 : (rbr :: (a.reverse ++ [lbr])).reverse = lbr :: a ++ [rbr] := by
    simp [List.reverse_cons, List.reverse_append]
  have hex : extractJsonMatch (pre ++ lbr :: a ++ rbr :: post)
      = some (lbr :: a ++ [rbr]) := by
    simp only [extractJsonMatch, h1, h2, h3, h4]
    simp
  refine ⟨hex, ?_⟩
  simp only [classifyAndPrioritizeEmail, hex]
  cases p (lbr :: a ++ [rbr]) <;> simp [Option.getD]

theorem classify_extracts_greedy_brace_span_witness :
    lbr ∉ ['q'] ∧ rbr ∉ ['y'] ∧
    (extractJsonMatch (['q'] ++ lbr :: ['x'] ++ rbr :: ['y'])
        = some (lbr :: ['x'] ++ [rbr]) ∧
      classifyAndPrioritizeEmail parse0
          (GenOutcome.ok (['q'] ++ lbr :: ['x'] ++ rbr :: ['y']))
        = (parse0 (lbr :: ['x'] ++ [rbr])).getD fallbackClassification) :=
  ⟨by decide, by decide,
   classify_extracts_greedy_brace_span parse0 ['q'] ['x'] ['y'] (by decide) (by decide)⟩

lemma find?_cons_eq_ite {α} (p : α → Bool) (a : α) (l : List α) :
    (a :: l).find? p = if p a then some a else l.find? p := by
  rw [List.find?_cons]
  cases h : p a <;> simp [h]

lemma find?_map_of_pred {α} (f : α → α) (q : α → Bool) (l : List α)
    (h : ∀ x, q (f x) = q x) :
    (l.map f).find? q = (l.find? q).map f := by
  induction l with
  | nil => rfl
  | cons x t ih =>
    rw [List.map_cons, find?_cons_eq_ite, find?_cons_eq_ite, h x]
    cases hq : q x <;> simp [ih]

lemma existsGoogleItem_of_items_ext {db db' : DB}
    (h : ∃ new, db'.items = db.items ++ new) {uid gid : String}
    (he : existsGoogleItem db uid gid = true) :
    existsGoogleItem db' uid gid = true := by
  obtain ⟨new, hn⟩ := h
  unfold existsGoogleItem at he ⊢
  rw [hn, List.any_append, he, Bool.true_or]

lemma existsMicrosoftItem_of_items_ext {db db' : DB}
    (h : ∃ new, db'.items = db.items ++ new) {uid mid : String}
    (he : existsMicrosoftItem db uid mid = true) :
    existsMicrosoftItem db' uid mid = true := by
  obtain ⟨new, hn⟩ := h
  unfold existsMicrosoftItem at he ⊢
  rw [hn, List.any_append, he, Bool.true_or]

lemma existsGoogleItem_false_forall {db : DB} {uid gid : String}
    (h : existsGoogleItem db uid gid = false) :
    ∀ it ∈ db.items, ¬(it.userId = uid ∧ it.metadata.googleId = some gid) := by
  intro it hit
  have := List.any_eq_false.mp h it hit
  simpa using this

lemma existsMicrosoftItem_false_forall {db : DB} {uid mid : String}
    (h : existsMicrosoftItem db uid mid = false) :
    ∀ it ∈ db.items, ¬(it.userId = uid ∧ it.metadata.microsoftId = some mid) := by
  intro it hit
  have := List.any_eq_false.mp h it hit
  simpa using this

lemma getOrCreate_users (db : DB) (uid : String) (now : Nat) :
    ((getOrCreateExternalThread db uid now).2).users = db.users := by
  unfold getOrCreateExternalThread
  split <;> rfl

lemma getOrCreate_items (db : DB) (uid : String) (now : Nat) :
    ((getOrCreateExternalThread db uid now).2).items = db.items := by
  unfold getOrCreateExternalThread
  split <;> rfl

lemma getOrCreate_threads_ext (db : DB) (uid : String) (now : Nat) :
    ∃ ex, ((getOrCreateExternalThread db uid now).2).threads = db.threads ++ ex := by
  unfold getOrCreateExternalThread
  split
  · exact ⟨[], by simp⟩
  · exact ⟨_, rfl⟩

lemma getOrCreate_nextId_le (db : DB) (uid : String) (now : Nat) :
    db.nextId ≤ ((getOrCreateExternalThread db uid now).2).nextId := by
  unfold getOrCreateExternalThread
  split
  · exact Nat.le_refl _
  · exact Nat.le_succ _

lemma getThreadById_of_threads_ext {db db' : DB}
    (h : ∃ ex, db'.threads = db.threads ++ ex) {tid : Nat} {t : WorkThread}
    (ht : getThreadById db tid = some t) : getThreadById db' tid = some t := by
  obtain ⟨ex, he⟩ := h
  unfold getThreadById at ht ⊢
  rw [he, List.find?_append, ht]
  rfl

lemma getOrCreate_fresh {db : DB} {uid : String} {now : Nat} (h : FreshIds db) :
    FreshIds ((getOrCreateExternalThread db uid now).2) := by
  unfold getOrCreateExternalThread
  split
  · exact h
  · intro t ht x hx
    rcases List.mem_append.mp ht with h1 | h1
    · exact Nat.lt_succ_of_lt (h t h1 x hx)
    · simp at h1
      subst h1
      simp at hx

lemma getOrCreate_exists_thread (db : DB) (uid : String) (now : Nat) :
    ∃ t1, getThreadById ((getOrCreateExternalThread db uid now).2)
      ((getOrCreateExternalThread db uid now).1) = some t1 := by
  have hmem : ∃ t ∈ ((getOrCreateExternalThread db uid now).2).threads,
      t.id = (getOrCreateExternalThread db uid now).1 := by
    unfold getOrCreateExternalThread
    split
    · rename_i t hfind
      exact ⟨t, List.mem_of_find?_eq_some hfind, rfl⟩
    · dsimp only
      refine ⟨_, List.mem_append_right _ (List.mem_singleton_self _), ?_⟩
      rfl
  obtain ⟨t, htmem, htid⟩ := hmem
  have hs : (getThreadById ((getOrCreateExternalThread db uid now).2)
      ((getOrCreateExternalThread db uid now).1)).isSome := by
    rw [getThreadById, List.find?_isSome]
    exact ⟨t, htmem, by simp [htid]⟩
  exact Option.isSome_iff_exists.mp hs

lemma createItem_items (db : DB) (n : NewItem) :
    (createItem db n).2.items = db.items ++ [(createItem db n).1] := rfl

lemma createItem_users (db : DB) (n : NewItem) :
    (createItem db n).2.users = db.users := rfl

lemma createItem_threads (db : DB) (n : NewItem) :
    (createItem db n).2.threads = db.threads := rfl

lemma createItem_nextId (db : DB) (n : NewItem) :
    (createItem db n).2.nextId = db.nextId + 1 := rfl

lemma createItem_id (db : DB) (n : NewItem) :
    (createItem db n).1.id = db.nextId := rfl

lemma createItem_userId (db : DB) (n : NewItem) :
    (createItem db n).1.userId = n.userId := rfl

lemma createItem_metadata (db : DB) (n : NewItem) :
    (createItem db n).1.metadata = n.metadata := rfl

lemma update_items (db : DB) (tid i now : Nat) (b : Bool) :
    (workThreadFindByIdAndUpdate db tid i now b).items = db.items := rfl

lemma update_users (db : DB) (tid i now : Nat) (b : Bool) :
    (workThreadFindByIdAndUpdate db tid i now b).users = db.users := rfl

lemma update_nextId (db : DB) (tid i now : Nat) (b : Bool) :
    (workThreadFindByIdAndUpdate db tid i now b).nextId = db.nextId := rfl

lemma update_getThreadById (db : DB) (tid i now : Nat) (b : Bool) (tid2 : Nat) :
    getThreadById (workThreadFindByIdAndUpdate db tid i now b) tid2
      = (getThreadById db tid2).map (fun t =>
          if t.id = tid then
            { t with
              itemIds := if i ∈ t.itemIds then t.itemIds else t.itemIds ++ [i]
              lastActivity := now
              priority := if b then Priority.high else t.priority }
          else t) := by
  unfold getThreadById workThreadFindByIdAndUpdate
  apply find?_map_of_pred
  intro t
  by_cases h : t.id = tid <;> simp [h]

lemma update_fresh {db : DB} {tid i now : Nat} {b : Bool}
    (h : FreshIds db) (hi : i < db.nextId) :
    FreshIds (workThreadFindByIdAndUpdate db tid i now b) := by
  intro t ht x hx
  rw [workThreadFindByIdAndUpdate] at ht
  simp only [List.mem_map] at ht
  obtain ⟨t0, ht0, rfl⟩ := ht
  rw [update_nextId]
  by_cases hid : t0.id = tid
  · simp only [hid, if_true] at hx
    by_cases hmem : i ∈ t0.itemIds
    · simp only [hmem, if_true] at hx
      exact h t0 ht0 x hx
    · simp only [hmem, if_false] at hx
      rcases List.mem_append.mp hx with h1 | h1
      · exact h t0 ht0 x h1
      · simp at h1
        subst h1
        exact hi
  · simp only [hid, if_false] at hx
    exact h t0 ht0 x hx

lemma fresh_of_threads_eq_nextId_le {db db' : DB} (h : FreshIds db)
    (ht : db'.threads = db.threads) (hn : db.nextId ≤ db'.nextId) :
    FreshIds db' := by
  intro t htm x hx
  rw [ht] at htm
  exact Nat.lt_of_lt_of_le (h t htm x hx) hn

lemma setGoogleLastSync_id (u : User) (now : Nat) :
    (setGoogleLastSync u now).id = u.id := by
  obtain ⟨uid0, igo⟩ := u
  cases igo with
  | none => rfl
  | some ig =>
    obtain ⟨go, mo⟩ := ig
    cases go with
    | none => rfl
    | some g => rfl

lemma setMicrosoftLastSync_id (u : User) (now : Nat) :
    (setMicrosoftLastSync u now).id = u.id := by
  obtain ⟨uid0, igo⟩ := u
  cases igo with
  | none => rfl
  | some ig =>
    obtain ⟨go, mo⟩ := ig
    cases mo with
    | none => rfl
    | some m => rfl

lemma googleAccessTokenOf_setGoogle (u : User) (now : Nat) :
    googleAccessTokenOf (setGoogleLastSync u now) = googleAccessTokenOf u := by
  obtain ⟨uid0, igo⟩ := u
  cases igo with
  | none => rfl
  | some ig =>
    obtain ⟨go, mo⟩ := ig
    cases go with
    | none => rfl
    | some g => rfl

lemma microsoftAccessTokenOf_setMicrosoft (u : User) (now : Nat) :
    microsoftAccessTokenOf (setMicrosoftLastSync u now) = microsoftAccessTokenOf u := by
  obtain ⟨uid0, igo⟩ := u
  cases igo with
  | none => rfl
  | some ig =>
    obtain ⟨go, mo⟩ := ig
    cases mo with
    | none => rfl
    | some m => rfl

lemma googleInt_isSome_setGoogle (u : User) (now : Nat) :
    ((setGoogleLastSync u now).integrations.bind fun i => i.google).isSome
      = (u.integrations.bind fun i => i.google).isSome := by
  obtain ⟨uid0, igo⟩ := u
  cases igo with
  | none => rfl
  | some ig =>
    obtain ⟨go, mo⟩ := ig
    cases go with
    | none => rfl
    | some g => rfl

lemma microsoftInt_isSome_setMicrosoft (u : User) (now : Nat) :
    ((setMicrosoftLastSync u now).integrations.bind fun i => i.microsoft).isSome
      = (u.integrations.bind fun i => i.microsoft).isSome := by
  obtain ⟨uid0, igo⟩ := u
  cases igo with
  | none => rfl
  | some ig =>
    obtain ⟨go, mo⟩ := ig
    cases mo with
    | none => rfl
    | some m => rfl

lemma findUser_stampGoogle (db : DB) (uid : String) (now : Nat) (uid2 : String) :
    findUser (stampGoogleLastSync db uid now) uid2
      = (findUser db uid2).map (fun u =>
          if u.id = uid then setGoogleLastSync u now else u) := by
  unfold findUser stampGoogleLastSync
  apply find?_map_of_pred
  intro u
  by_cases h : u.id = uid <;> simp [h, setGoogleLastSync_id]

lemma findUser_stampMicrosoft (db : DB) (uid : String) (now : Nat) (uid2 : String) :
    findUser (stampMicrosoftLastSync db uid now) uid2
      = (findUser db uid2).map (fun u =>
          if u.id = uid then setMicrosoftLastSync u now else u) := by
  unfold findUser stampMicrosoftLastSync
  apply find?_map_of_pred
  intro u
  by_cases h : u.id = uid <;> simp [h, setMicrosoftLastSync_id]

lemma stampGoogle_items (db : DB) (uid : String) (now : Nat) :
    (stampGoogleLastSync db uid now).items = db.items := rfl

lemma stampGoogle_threads (db : DB) (uid : String) (now : Nat) :
    (stampGoogleLastSync db uid now).threads = db.threads := rfl

lemma stampMicrosoft_items (db : DB) (uid : String) (now : Nat) :
    (stampMicrosoftLastSync db uid now).items = db.items := rfl

lemma stampMicrosoft_threads (db : DB) (uid : String) (now : Nat) :
    (stampMicrosoftLastSync db uid now).threads = db.threads := rfl

lemma ingestItem_fst (db : DB) (uid : String) (now : Nat) (mk : Nat → NewItem) (b : Bool) :
    (ingestItem db uid now mk b).1
      = (createItem (getOrCreateExternalThread db uid now).2
          (mk (getOrCreateExternalThread db uid now).1)).1 := rfl

lemma ingestItem_tid (db : DB) (uid : String) (now : Nat) (mk : Nat → NewItem) (b : Bool) :
    (ingestItem db uid now mk b).2.1 = (getOrCreateExternalThread db uid now).1 := rfl

lemma ingestItem_db (db : DB) (uid : String) (now : Nat) (mk : Nat → NewItem) (b : Bool) :
    (ingestItem db uid now mk b).2.2
      = workThreadFindByIdAndUpdate
          (createItem (getOrCreateExternalThread db uid now).2
            (mk (getOrCreateExternalThread db uid now).1)).2
          (getOrCreateExternalThread db uid now).1
          (createItem (getOrCreateExternalThread db uid now).2
            (mk (getOrCreateExternalThread db uid now).1)).1.id
          now b := rfl

lemma ingestItem_items_append (db : DB) (uid : String) (now : Nat)
    (mk : Nat → NewItem) (b : Bool) :
    (ingestItem db uid now mk b).2.2.items = db.items ++ [(ingestItem db uid now mk b).1] := by
  rw [ingestItem_db, update_items, createItem_items, getOrCreate_items, ingestItem_fst]

lemma ingestItem_users (db : DB) (uid : String) (now : Nat) (mk : Nat → NewItem) (b : Bool) :
    (ingestItem db uid now mk b).2.2.users = db.users := by
  rw [ingestItem_db, update_users, createItem_users, getOrCreate_users]

lemma getThreadById_createItem (db : DB) (n : NewItem) (tid : Nat) :
    getThreadById (createItem db n).2 tid = getThreadById db tid := rfl

lemma ingestItem_threadPri (db : DB) (uid : String) (now : Nat)
    (mk : Nat → NewItem) (b : Bool) :
    threadPriMono db (ingestItem db uid now mk b).2.2 := by
  intro tid2 t ht
  have ht1 : getThreadById (getOrCreateExternalThread db uid now).2 tid2 = some t :=
    getThreadById_of_threads_ext (getOrCreate_threads_ext db uid now) ht
  have ht2 : getThreadById (createItem (getOrCreateExternalThread db uid now).2
      (mk (getOrCreateExternalThread db uid now).1)).2 tid2 = some t := by
    rw [getThreadById_createItem]
    exact ht1
  rw [ingestItem_db]
  rw [update_getThreadById, ht2]
  refine ⟨_, rfl, ?_⟩
  by_cases h : t.id = (getOrCreateExternalThread db uid now).1
  · by_cases hb : b <;> simp [h, hb]
  · simp [h]

lemma ingestItem_fresh {db : DB} {uid : String} {now : Nat}
    {mk : Nat → NewItem} {b : Bool} (h : FreshIds db) :
    FreshIds (ingestItem db uid now mk b).2.2 := by
  have h1 : FreshIds (getOrCreateExternalThread db uid now).2 := getOrCreate_fresh h
  have h2 : FreshIds (createItem (getOrCreateExternalThread db uid now).2
      (mk (getOrCreateExternalThread db uid now).1)).2 := by
    refine fresh_of_threads_eq_nextId_le h1 (createItem_threads _ _) ?_
    rw [createItem_nextId]
    exact Nat.le_succ _
  rw [ingestItem_db]
  refine update_fresh h2 ?_
  rw [createItem_id, createItem_nextId]
  exact Nat.lt_succ_self _

lemma ingestItem_dbstep (db : DB) (uid : String) (now : Nat)
    (mk : Nat → NewItem) (b : Bool) :
    DBStep db (ingestItem db uid now mk b).2.2 :=
  ⟨⟨[(ingestItem db uid now mk b).1], ingestItem_items_append db uid now mk b⟩,
   ingestItem_users db uid now mk b,
   ingestItem_threadPri db uid now mk b,
   fun h => ingestItem_fresh h⟩

lemma ingestItem_created_userId (db : DB) (uid : String) (now : Nat)
    {mk : Nat → NewItem} (b : Bool) {u0 : String} (h : ∀ tid, (mk tid).userId = u0) :
    (ingestItem db uid now mk b).1.userId = u0 := by
  rw [ingestItem_fst, createItem_userId]
  exact h _

lemma ingestItem_created_metadata (db : DB) (uid : String) (now : Nat)
    {mk : Nat → NewItem} (b : Bool) {m0 : Metadata} (h : ∀ tid, (mk tid).metadata = m0) :
    (ingestItem db uid now mk b).1.metadata = m0 := by
  rw [ingestItem_fst, createItem_metadata]
  exact h _

lemma dbstep_refl (db : DB) : DBStep db db :=
  ⟨⟨[], by simp⟩, rfl, fun tid t ht => ⟨t, ht, Or.inl rfl⟩, id⟩

lemma dbstep_trans {a b c : DB} (h1 : DBStep a b) (h2 : DBStep b c) : DBStep a c := by
  refine ⟨?_, ?_, ?_, ?_⟩
  · obtain ⟨n1, e1⟩ := h1.items_ext
    obtain ⟨n2, e2⟩ := h2.items_ext
    exact ⟨n1 ++ n2, by rw [e2, e1, List.append_assoc]⟩
  · rw [h2.users_eq, h1.users_eq]
  · intro tid t ht
    obtain ⟨t1, ht1, hp1⟩ := h1.thread_pri tid t ht
    obtain ⟨t2, ht2, hp2⟩ := h2.thread_pri tid t1 ht1
    refine ⟨t2, ht2, ?_⟩
    rcases hp2 with h | h
    · rw [h]
      exact hp1
    · exact Or.inr h
  · exact fun h => h2.fresh (h1.fresh h)

lemma gmailLoop_dbstep (p : List Char → Option Classification) (env : GmailEnv)
    (now : Nat) (uid : String) :
    ∀ msgs c db, DBStep db (gmailLoop p env now uid msgs c db).2 := by
  intro msgs
  induction msgs with
  | nil => exact fun c db => dbstep_refl db
  | cons msg rest ih =>
    intro c db
    rw [gmailLoop]
    cases hd : env.details msg.id with
    | error e => exact dbstep_refl db
    | ok d =>
      by_cases hex : existsGoogleItem db uid msg.id
      · simp only [hex, if_true]
        exact ih c db
      · simp only [hex, if_false, Bool.false_eq_true]
        by_cases hw : (classifyAndPrioritizeEmail p (env.gen msg.id)).isWork
        · simp only [hw, if_true]
          exact dbstep_trans (ingestItem_dbstep db uid now _ _) (ih (c + 1) _)
        · simp only [hw, if_false, Bool.false_eq_true]
          exact ih c db

lemma calendarLoop_dbstep (now : Nat) (uid : String) :
    ∀ evs c db, DBStep db (calendarLoop now uid evs c db).2 := by
  intro evs
  induction evs with
  | nil => exact fun c db => dbstep_refl db
  | cons e rest ih =>
    intro c db
    rw [calendarLoop]
    by_cases hex : existsGoogleItem db uid e.id
    · simp only [hex, if_true]
      exact ih c db
    · simp only [hex, if_false, Bool.false_eq_true]
      exact dbstep_trans (ingestItem_dbstep db uid now _ _) (ih (c + 1) _)

lemma tasksInnerLoop_dbstep (now : Nat) (uid : String) (list : TaskList) :
    ∀ tasks c db, DBStep db (tasksInnerLoop now uid list tasks c db).2 := by
  intro tasks
  induction tasks with
  | nil => exact fun c db => dbstep_refl db
  | cons task rest ih =>
    intro c db
    rw [tasksInnerLoop]
    by_cases hex : existsGoogleItem db uid task.id
    · simp only [hex, if_true]
      exact ih c db
    · simp only [hex, if_false, Bool.false_eq_true]
      exact dbstep_trans (ingestItem_dbstep db uid now _ _) (ih (c + 1) _)

lemma tasksOuterLoop_dbstep (env : TasksEnv) (now : Nat) (uid : String) :
    ∀ lists c db, DBStep db (tasksOuterLoop env now uid lists c db).2 := by
  intro lists
  induction lists with
  | nil => exact fun c db => dbstep_refl db
  | cons list rest ih =>
    intro c db
    rw [tasksOuterLoop]
    cases ht : env.tasksOf list.id with
    | error e => exact dbstep_refl db
    | ok tasksO =>
      exact dbstep_trans (tasksInnerLoop_dbstep now uid list _ c db) (ih _ _)

lemma teamsLoop_dbstep (now : Nat) (uid : String) :
    ∀ chats c db, DBStep db (teamsLoop now uid chats c db).2 := by
  intro chats
  induction chats with
  | nil => exact fun c db => dbstep_refl db
  | cons chat rest ih =>
    intro c db
    rw [teamsLoop]
    cases hpv : teamsPreviewContent chat with
    | none => exact ih c db
    | some pr =>
      by_cases hex : existsMicrosoftItem db uid pr.1.id
      · simp only [hex, if_true]
        exact ih c db
      · simp only [hex, if_false, Bool.false_eq_true]
        exact dbstep_trans (ingestItem_dbstep db uid now _ _) (ih (c + 1) _)

lemma existsGoogleItem_ingest {db : DB} {uid : String} {now : Nat}
    {mk : Nat → NewItem} {b : Bool} {gid : String}
    (hu : ∀ tid, (mk tid).userId = uid)
    (hg : ∀ tid, (mk tid).metadata.googleId = some gid) :
    existsGoogleItem (ingestItem db uid now mk b).2.2 uid gid = true := by
  have h1 : (ingestItem db uid now mk b).1.userId = uid := by
    rw [ingestItem_fst, createItem_userId]
    exact hu _
  have h2 : (ingestItem db uid now mk b).1.metadata.googleId = some gid := by
    rw [ingestItem_fst, createItem_metadata]
    exact hg _
  unfold existsGoogleItem
  rw [ingestItem_items_append, List.any_append]
  simp [h1, h2]

lemma existsMicrosoftItem_ingest {db : DB} {uid : String} {now : Nat}
    {mk : Nat → NewItem} {b : Bool} {mid : String}
    (hu : ∀ tid, (mk tid).userId = uid)
    (hm : ∀ tid, (mk tid).metadata.microsoftId = some mid) :
    existsMicrosoftItem (ingestItem db uid now mk b).2.2 uid mid = true := by
  have h1 : (ingestItem db uid now mk b).1.userId = uid := by
    rw [ingestItem_fst, createItem_userId]
    exact hu _
  have h2 : (ingestItem db uid now mk b).1.metadata.microsoftId = some mid := by
    rw [ingestItem_fst, createItem_metadata]
    exact hm _
  unfold existsMicrosoftItem
  rw [ingestItem_items_append, List.any_append]
  simp [h1, h2]

lemma calendarLoop_twice (now1 now2 : Nat) (uid : String) :
    ∀ evs c1 c2 db,
      calendarLoop now2 uid evs c2 (calendarLoop now1 uid evs c1 db).2
        = (c2, (calendarLoop now1 uid evs c1 db).2) := by
  intro evs
  induction evs with
  | nil => intro c1 c2 db; rfl
  | cons e rest ih =>
    intro c1 c2 db
    simp only [calendarLoop]
    by_cases hex : existsGoogleItem db uid e.id
    · simp only [hex, if_true]
      have hex2 : existsGoogleItem (calendarLoop now1 uid rest c1 db).2 uid e.id = true :=
        existsGoogleItem_of_items_ext (calendarLoop_dbstep now1 uid rest c1 db).items_ext hex
      simp only [hex2, if_true]
      exact ih c1 c2 db
    · simp only [hex, if_false, Bool.false_eq_true]
      have hcr : existsGoogleItem
          (ingestItem db uid now1 (calendarNewItem uid e) false).2.2 uid e.id = true :=
        existsGoogleItem_ingest (fun _ => rfl) (fun _ => rfl)
      have hex2 : existsGoogleItem
          (calendarLoop now1 uid rest (c1 + 1)
            (ingestItem db uid now1 (calendarNewItem uid e) false).2.2).2 uid e.id = true :=
        existsGoogleItem_of_items_ext
          (calendarLoop_dbstep now1 uid rest (c1 + 1) _).items_ext hcr
      simp only [hex2, if_true]
      exact ih (c1 + 1) c2 _

lemma gmailLoop_twice (p : List Char → Option Classification) (env : GmailEnv)
    (now1 now2 : Nat) (uid : String) :
    ∀ msgs c1 c2 db,
      gmailLoop p env now2 uid msgs c2 (gmailLoop p env now1 uid msgs c1 db).2
        = ((gmailLoop p env now1 uid msgs c1 db).1.map fun _ => c2,
           (gmailLoop p env now1 uid msgs c1 db).2) := by
  intro msgs
  induction msgs with
  | nil => intro c1 c2 db; rfl
  | cons msg rest ih =>
    intro c1 c2 db
    simp only [gmailLoop]
    cases hd : env.details msg.id with
    | error e => rfl
    | ok d =>
      by_cases hex : existsGoogleItem db uid msg.id
      · simp only [hex, if_true]
        have hex2 : existsGoogleItem (gmailLoop p env now1 uid rest c1 db).2 uid msg.id = true :=
          existsGoogleItem_of_items_ext (gmailLoop_dbstep p env now1 uid rest c1 db).items_ext hex
        simp only [hex2, if_true]
        exact ih c1 c2 db
      · simp only [hex, if_false, Bool.false_eq_true]
        by_cases hw : (classifyAndPrioritizeEmail p (env.gen msg.id)).isWork
        · simp only [hw, if_true]
          have hcr : existsGoogleItem
              (ingestItem db uid now1
                (gmailNewItem uid msg d (classifyAndPrioritizeEmail p (env.gen msg.id)))
                (decide ((classifyAndPrioritizeEmail p (env.gen msg.id)).priority
                  = Priority.high))).2.2 uid msg.id = true :=
            existsGoogleItem_ingest (fun _ => rfl) (fun _ => rfl)
          have hex2 : existsGoogleItem
              (gmailLoop p env now1 uid rest (c1 + 1)
                (ingestItem db uid now1
                  (gmailNewItem uid msg d (classifyAndPrioritizeEmail p (env.gen msg.id)))
                  (decide ((classifyAndPrioritizeEmail p (env.gen msg.id)).priority
                    = Priority.high))).2.2).2 uid msg.id = true :=
            existsGoogleItem_of_items_ext
              (gmailLoop_dbstep p env now1 uid rest (c1 + 1) _).items_ext hcr
          simp only [hex2, if_true]
          exact ih (c1 + 1) c2 _
        · simp only [hw, if_false, Bool.false_eq_true]
          by_cases hex2 : existsGoogleItem (gmailLoop p env now1 uid rest c1 db).2 uid msg.id
          · simp only [hex2, if_true]
            exact ih c1 c2 db
          · simp only [hex2, if_false, Bool.false_eq_true, hw]
            exact ih c1 c2 db

lemma teamsLoop_twice (now1 now2 : Nat) (uid : String) :
    ∀ chats c1 c2 db,
      teamsLoop now2 uid chats c2 (teamsLoop now1 uid chats c1 db).2
        = (c2, (teamsLoop now1 uid chats c1 db).2) := by
  intro chats
  induction chats with
  | nil => intro c1 c2 db; rfl
  | cons chat rest ih =>
    intro c1 c2 db
    simp only [teamsLoop]
    cases hpv : teamsPreviewContent chat with
    | none => exact ih c1 c2 db
    | some pr =>
      by_cases hex : existsMicrosoftItem db uid pr.1.id
      · simp only [hex, if_true]
        have hex2 : existsMicrosoftItem (teamsLoop now1 uid rest c1 db).2 uid pr.1.id = true :=
          existsMicrosoftItem_of_items_ext (teamsLoop_dbstep now1 uid rest c1 db).items_ext hex
        simp only [hex2, if_true]
        exact ih c1 c2 db
      · simp only [hex, if_false, Bool.false_eq_true]
        have hcr : existsMicrosoftItem
            (ingestItem db uid now1 (teamsNewItem uid chat pr.1 pr.2 now1) false).2.2
              uid pr.1.id = true :=
          existsMicrosoftItem_ingest (fun _ => rfl) (fun _ => rfl)
        have hex2 : existsMicrosoftItem
            (teamsLoop now1 uid rest (c1 + 1)
              (ingestItem db uid now1 (teamsNewItem uid chat pr.1 pr.2 now1) false).2.2).2
              uid pr.1.id = true :=
          existsMicrosoftItem_of_items_ext
            (teamsLoop_dbstep now1 uid rest (c1 + 1) _).items_ext hcr
        simp only [hex2, if_true]
        exact ih (c1 + 1) c2 _

lemma tasksInnerLoop_all_exists (now : Nat) (uid : String) (list : TaskList) :
    ∀ tasks c db, ∀ t ∈ tasks,
      existsGoogleItem (tasksInnerLoop now uid list tasks c db).2 uid t.id = true := by
  intro tasks
  induction tasks with
  | nil =>
    intro c db t ht
    simp at ht
  | cons task rest ih =>
    intro c db t ht
    simp only [tasksInnerLoop]
    rcases List.mem_cons.mp ht with h | h
    · subst h
      by_cases hex : existsGoogleItem db uid t.id
      · simp only [hex, if_true]
        exact existsGoogleItem_of_items_ext
          (tasksInnerLoop_dbstep now uid list rest c db).items_ext hex
      · simp only [hex, if_false, Bool.false_eq_true]
        have hcr : existsGoogleItem
            (ingestItem db uid now (taskNewItem uid list t now) false).2.2 uid t.id = true :=
          existsGoogleItem_ingest (fun _ => rfl) (fun _ => rfl)
        exact existsGoogleItem_of_items_ext
          (tasksInnerLoop_dbstep now uid list rest (c + 1) _).items_ext hcr
    · by_cases hex : existsGoogleItem db uid task.id
      · simp only [hex, if_true]
        exact ih c db t h
      · simp only [hex, if_false, Bool.false_eq_true]
        exact ih (c + 1) _ t h

lemma tasksInnerLoop_skip_all (now : Nat) (uid : String) (list : TaskList) :
    ∀ tasks c db, (∀ t ∈ tasks, existsGoogleItem db uid t.id = true) →
      tasksInnerLoop now uid list tasks c db = (c, db) := by
  intro tasks
  induction tasks with
  | nil => intro c db _; rfl
  | cons task rest ih =>
    intro c db h
    have hex : existsGoogleItem db uid task.id = true := h task (by simp)
    simp only [tasksInnerLoop, hex, if_true]
    exact ih c db fun t ht => h t (by simp [ht])

lemma tasksOuterLoop_twice (env : TasksEnv) (now1 now2 : Nat) (uid : String) :
    ∀ lists c1 c2 db,
      tasksOuterLoop env now2 uid lists c2 (tasksOuterLoop env now1 uid lists c1 db).2
        = ((tasksOuterLoop env now1 uid lists c1 db).1.map fun _ => c2,
           (tasksOuterLoop env now1 uid lists c1 db).2) := by
  intro lists
  induction lists with
  | nil => intro c1 c2 db; rfl
  | cons list rest ih =>
    intro c1 c2 db
    simp only [tasksOuterLoop]
    cases ht : env.tasksOf list.id with
    | error e => rfl
    | ok tasksO =>
      dsimp only
      have hall : ∀ t ∈ tasksO.getD [],
          existsGoogleItem
            (tasksOuterLoop env now1 uid rest
              (tasksInnerLoop now1 uid list (tasksO.getD []) c1 db).1
              (tasksInnerLoop now1 uid list (tasksO.getD []) c1 db).2).2 uid t.id = true := by
        intro t htm
        apply existsGoogleItem_of_items_ext
          (tasksOuterLoop_dbstep env now1 uid rest _ _).items_ext
        exact tasksInnerLoop_all_exists now1 uid list _ c1 db t htm
      have hskip := tasksInnerLoop_skip_all now2 uid list (tasksO.getD []) c2 _ hall
      rw [hskip]
      exact ih _ c2 _

lemma getOrCreate_withUsers (db : DB) (us : List User) (uid : String) (now : Nat) :
    getOrCreateExternalThread (withUsers db us) uid now
      = ((getOrCreateExternalThread db uid now).1,
         withUsers (getOrCreateExternalThread db uid now).2 us) := by
  unfold getOrCreateExternalThread withUsers
  cases h : db.threads.find? (fun t => decide (t.userId = uid ∧ t.title = "External Imports")) with
  | none => simp [h]
  | some t => simp [h]

lemma ingestItem_withUsers (db : DB) (us : List User) (uid : String) (now : Nat)
    (mk : Nat → NewItem) (b : Bool) :
    ingestItem (withUsers db us) uid now mk b
      = ((ingestItem db uid now mk b).1, (ingestItem db uid now mk b).2.1,
         withUsers (ingestItem db uid now mk b).2.2 us) := by
  unfold ingestItem
  rw [getOrCreate_withUsers]
  rfl

lemma existsGoogleItem_withUsers (db : DB) (us : List User) (uid gid : String) :
    existsGoogleItem (withUsers db us) uid gid = existsGoogleItem db uid gid := rfl

lemma existsMicrosoftItem_withUsers (db : DB) (us : List User) (uid mid : String) :
    existsMicrosoftItem (withUsers db us) uid mid = existsMicrosoftItem db uid mid := rfl

lemma gmailLoop_withUsers (p : List Char → Option Classification) (env : GmailEnv)
    (now : Nat) (uid : String) :
    ∀ msgs c db us,
      gmailLoop p env now uid msgs c (withUsers db us)
        = ((gmailLoop p env now uid msgs c db).1,
           withUsers (gmailLoop p env now uid msgs c db).2 us) := by
  intro msgs
  induction msgs with
  | nil => intro c db us; rfl
  | cons msg rest ih =>
    intro c db us
    simp only [gmailLoop]
    cases hd : env.details msg.id with
    | error e => rfl
    | ok d =>
      rw [existsGoogleItem_withUsers]
      by_cases hex : existsGoogleItem db uid msg.id
      · simp only [hex, if_true]
        exact ih c db us
      · simp only [hex, if_false, Bool.false_eq_true]
        by_cases hw : (classifyAndPrioritizeEmail p (env.gen msg.id)).isWork
        · simp only [hw, if_true, ingestItem_withUsers]
          exact ih (c + 1) _ us
        · simp only [hw, if_false, Bool.false_eq_true]
          exact ih c db us

lemma teamsLoop_withUsers (now : Nat) (uid : String) :
    ∀ chats c db us,
      teamsLoop now uid chats c (withUsers db us)
        = ((teamsLoop now uid chats c db).1,
           withUsers (teamsLoop now uid chats c db).2 us) := by
  intro chats
  induction chats with
  | nil => intro c db us; rfl
  | cons chat rest ih =>
    intro c db us
    simp only [teamsLoop]
    cases hpv : teamsPreviewContent chat with
    | none => exact ih c db us
    | some pr =>
      dsimp only
      rw [existsMicrosoftItem_withUsers]
      by_cases hex : existsMicrosoftItem db uid pr.1.id
      · simp only [hex, if_true]
        exact ih c db us
      · simp only [hex, if_false, Bool.false_eq_true, ingestItem_withUsers]
        exact ih (c + 1) _ us

lemma find?_some_pred {α} {p : α → Bool} {l : List α} {a : α}
    (h : l.find? p = some a) : p a = true :=
  List.find?_some h

lemma findUser_users_eq {db db' : DB} (h : db'.users = db.users) (uid : String) :
    findUser db' uid = findUser db uid := by
  unfold findUser
  rw [h]

lemma findUser_id {db : DB} {uid : String} {u : User} (h : findUser db uid = some u) :
    u.id = uid := by
  unfold findUser at h
  have h2 := find?_some_pred h
  simpa using h2

lemma syncCalendar_twice (env : CalendarEnv) (now1 now2 : Nat) (uid : String)
    (ov : Option String) (db : DB) :
    (syncCalendar env now2 uid ov (syncCalendar env now1 uid ov db).2).1 = 0 ∧
    (syncCalendar env now2 uid ov (syncCalendar env now1 uid ov db).2).2.items
      = (syncCalendar env now1 uid ov db).2.items := by
  cases hu : findUser db uid with
  | none =>
    have e1 : syncCalendar env now1 uid ov db = (0, db) := by
      simp only [syncCalendar, hu]
    have e2 : syncCalendar env now2 uid ov db = (0, db) := by
      simp only [syncCalendar, hu]
    simp [e1, e2]
  | some user =>
    cases hrt : resolveToken ov (googleAccessTokenOf user) with
    | none =>
      have e1 : syncCalendar env now1 uid ov db = (0, db) := by
        simp only [syncCalendar, hu, hrt]
      have e2 : syncCalendar env now2 uid ov db = (0, db) := by
        simp only [syncCalendar, hu, hrt]
      simp [e1, e2]
    | some tok =>
      cases hlr : env.listRes with
      | error er =>
        have e1 : syncCalendar env now1 uid ov db = (0, db) := by
          simp only [syncCalendar, hu, hrt, hlr]
        have e2 : syncCalendar env now2 uid ov db = (0, db) := by
          simp only [syncCalendar, hu, hrt, hlr]
        simp [e1, e2]
      | ok evO =>
        have e1 : syncCalendar env now1 uid ov db
            = calendarLoop now1 uid (evO.getD []) 0 db := by
          simp only [syncCalendar, hu, hrt, hlr]
        have hfind2 : findUser (calendarLoop now1 uid (evO.getD []) 0 db).2 uid = some user := by
          rw [findUser_users_eq (calendarLoop_dbstep now1 uid (evO.getD []) 0 db).users_eq]
          exact hu
        have e2 : syncCalendar env now2 uid ov (calendarLoop now1 uid (evO.getD []) 0 db).2
            = calendarLoop now2 uid (evO.getD []) 0
                (calendarLoop now1 uid (evO.getD []) 0 db).2 := by
          simp only [syncCalendar, hfind2, hrt, hlr]
        rw [e1, e2, calendarLoop_twice]
        exact ⟨rfl, rfl⟩

lemma syncTasks_twice (env : TasksEnv) (now1 now2 : Nat) (uid : String)
    (ov : Option String) (db : DB) :
    (syncTasks env now2 uid ov (syncTasks env now1 uid ov db).2).1 = 0 ∧
    (syncTasks env now2 uid ov (syncTasks env now1 uid ov db).2).2.items
      = (syncTasks env now1 uid ov db).2.items := by
  cases hu : findUser db uid with
  | none =>
    have e1 : syncTasks env now1 uid ov db = (0, db) := by
      simp only [syncTasks, hu]
    have e2 : syncTasks env now2 uid ov db = (0, db) := by
      simp only [syncTasks, hu]
    simp [e1, e2]
  | some user =>
    cases hrt : resolveToken ov (googleAccessTokenOf user) with
    | none =>
      have e1 : syncTasks env now1 uid ov db = (0, db) := by
        simp only [syncTasks, hu, hrt]
      have e2 : syncTasks env now2 uid ov db = (0, db) := by
        simp only [syncTasks, hu, hrt]
      simp [e1, e2]
    | some tok =>
      cases hlr : env.listsRes with
      | error er =>
        have e1 : syncTasks env now1 uid ov db = (0, db) := by
          simp only [syncTasks, hu, hrt, hlr]
        have e2 : syncTasks env now2 uid ov db = (0, db) := by
          simp only [syncTasks, hu, hrt, hlr]
        simp [e1, e2]
      | ok listsO =>
        have hfind2 : findUser (tasksOuterLoop env now1 uid (listsO.getD []) 0 db).2 uid
            = some user := by
          rw [findUser_users_eq
            (tasksOuterLoop_dbstep env now1 uid (listsO.getD []) 0 db).users_eq]
          exact hu
        have htw := tasksOuterLoop_twice env now1 now2 uid (listsO.getD []) 0 0 db
        cases hL1 : (tasksOuterLoop env now1 uid (listsO.getD []) 0 db).1 with
        | none =>
          have e1 : syncTasks env now1 uid ov db
              = (0, (tasksOuterLoop env now1 uid (listsO.getD []) 0 db).2) := by
            simp only [syncTasks, hu, hrt, hlr]
            rw [hL1]
          have e2 : syncTasks env now2 uid ov
              (tasksOuterLoop env now1 uid (listsO.getD []) 0 db).2
              = (0, (tasksOuterLoop env now1 uid (listsO.getD []) 0 db).2) := by
            simp only [syncTasks, hfind2, hrt, hlr, htw, hL1]
            simp
          simp [e1, e2]
        | some count =>
          have e1 : syncTasks env now1 uid ov db
              = (count, (tasksOuterLoop env now1 uid (listsO.getD []) 0 db).2) := by
            simp only [syncTasks, hu, hrt, hlr]
            rw [hL1]
          have e2 : syncTasks env now2 uid ov
              (tasksOuterLoop env now1 uid (listsO.getD []) 0 db).2
              = (0, (tasksOuterLoop env now1 uid (listsO.getD []) 0 db).2) := by
            simp only [syncTasks, hfind2, hrt, hlr, htw, hL1]
            simp
          simp [e1, e2]

lemma syncGmail_twice (p : List Char → Option Classification) (env : GmailEnv)
    (now1 now2 : Nat) (uid : String) (ov : Option String) (db : DB) :
    (syncGmail p env now2 uid ov (syncGmail p env now1 uid ov db).2).1 = 0 ∧
    (syncGmail p env now2 uid ov (syncGmail p env now1 uid ov db).2).2.items
      = (syncGmail p env now1 uid ov db).2.items := by
  cases hu : findUser db uid with
  | none =>
    have e1 : syncGmail p env now1 uid ov db = (0, db) := by
      simp only [syncGmail, hu]
    have e2 : syncGmail p env now2 uid ov db = (0, db) := by
      simp only [syncGmail, hu]
    simp [e1, e2]
  | some user =>
    have huid : user.id = uid := findUser_id hu
    cases hrt : resolveToken ov (googleAccessTokenOf user) with
    | none =>
      have e1 : syncGmail p env now1 uid ov db = (0, db) := by
        simp only [syncGmail, hu, hrt]
      have e2 : syncGmail p env now2 uid ov db = (0, db) := by
        simp only [syncGmail, hu, hrt]
      simp [e1, e2]
    | some tok =>
      cases hlr : env.listRes with
      | error er =>
        have e1 : syncGmail p env now1 uid ov db = (0, db) := by
          simp only [syncGmail, hu, hrt, hlr]
        have e2 : syncGmail p env now2 uid ov db = (0, db) := by
          simp only [syncGmail, hu, hrt, hlr]
        simp [e1, e2]
      | ok msgsO =>
        have hfind2 : findUser (gmailLoop p env now1 uid (msgsO.getD []) 0 db).2 uid
            = some user := by
          rw [findUser_users_eq
            (gmailLoop_dbstep p env now1 uid (msgsO.getD []) 0 db).users_eq]
          exact hu
        have htw := gmailLoop_twice p env now1 now2 uid (msgsO.getD []) 0 0 db
        cases hL1 : (gmailLoop p env now1 uid (msgsO.getD []) 0 db).1 with
        | none =>
          have e1 : syncGmail p env now1 uid ov db
              = (0, (gmailLoop p env now1 uid (msgsO.getD []) 0 db).2) := by
            simp only [syncGmail, hu, hrt, hlr]
            rw [hL1]
          have e2 : syncGmail p env now2 uid ov
              (gmailLoop p env now1 uid (msgsO.getD []) 0 db).2
              = (0, (gmailLoop p env now1 uid (msgsO.getD []) 0 db).2) := by
            simp only [syncGmail, hfind2, hrt, hlr, htw, hL1]
            simp
          simp [e1, e2]
        | some count =>
          by_cases hint : (user.integrations.bind fun i => i.google).isSome
          · have e1 : syncGmail p env now1 uid ov db
                = (count, stampGoogleLastSync
                    (gmailLoop p env now1 uid (msgsO.getD []) 0 db).2 uid now1) := by
              simp only [syncGmail, hu, hrt, hlr]
              rw [hL1]
              simp [hint]
            have hfindS : findUser (stampGoogleLastSync
                (gmailLoop p env now1 uid (msgsO.getD []) 0 db).2 uid now1) uid
                = some (setGoogleLastSync user now1) := by
              rw [findUser_stampGoogle, hfind2]
              simp [huid]
            have hrtS : resolveToken ov (googleAccessTokenOf (setGoogleLastSync user now1))
                = some tok := by
              rw [googleAccessTokenOf_setGoogle]
              exact hrt
            have hintS : ((setGoogleLastSync user now1).integrations.bind
                fun i => i.google).isSome := by
              rw [googleInt_isSome_setGoogle]
              exact hint
            have hstamp : stampGoogleLastSync
                (gmailLoop p env now1 uid (msgsO.getD []) 0 db).2 uid now1
                = withUsers (gmailLoop p env now1 uid (msgsO.getD []) 0 db).2
                    ((gmailLoop p env now1 uid (msgsO.getD []) 0 db).2.users.map
                      (fun u => if u.id = uid then setGoogleLastSync u now1 else u)) := rfl
            have hloop2 : gmailLoop p env now2 uid (msgsO.getD []) 0
                (stampGoogleLastSync
                  (gmailLoop p env now1 uid (msgsO.getD []) 0 db).2 uid now1)
                = (some 0, stampGoogleLastSync
                    (gmailLoop p env now1 uid (msgsO.getD []) 0 db).2 uid now1) := by
              rw [hstamp, gmailLoop_withUsers, htw, hL1]
              rfl
            have e2 : syncGmail p env now2 uid ov
                (stampGoogleLastSync
                  (gmailLoop p env now1 uid (msgsO.getD []) 0 db).2 uid now1)
                = (0, stampGoogleLastSync
                    (stampGoogleLastSync
                      (gmailLoop p env now1 uid (msgsO.getD []) 0 db).2 uid now1) uid now2) := by
              simp only [syncGmail, hfindS, hrtS, hlr, hloop2]
              simp [hintS]
            rw [e1, e2]
            exact ⟨rfl, by rw [stampGoogle_items]⟩
          · have e1 : syncGmail p env now1 uid ov db
                = (count, (gmailLoop p env now1 uid (msgsO.getD []) 0 db).2) := by
              simp only [syncGmail, hu, hrt, hlr]
              rw [hL1]
              simp [hint]
            have e2 : syncGmail p env now2 uid ov
                (gmailLoop p env now1 uid (msgsO.getD []) 0 db).2
                = (0, (gmailLoop p env now1 uid (msgsO.getD []) 0 db).2) := by
              simp only [syncGmail, hfind2, hrt, hlr, htw, hL1]
              simp [hint]
            simp [e1, e2]

lemma syncTeams_twice (env : TeamsEnv) (now1 now2 : Nat) (uid : String)
    (ov : Option String) (db : DB) :
    (syncTeams env now2 uid ov (syncTeams env now1 uid ov db).2).1 = 0 ∧
    (syncTeams env now2 uid ov (syncTeams env now1 uid ov db).2).2.items
      = (syncTeams env now1 uid ov db).2.items := by
  cases hu : findUser db uid with
  | none =>
    have e1 : syncTeams env now1 uid ov db = (0, db) := by
      simp only [syncTeams, hu]
    have e2 : syncTeams env now2 uid ov db = (0, db) := by
      simp only [syncTeams, hu]
    simp [e1, e2]
  | some user =>
    have huid : user.id = uid := findUser_id hu
    cases hrt : resolveToken ov (microsoftAccessTokenOf user) with
    | none =>
      have e1 : syncTeams env now1 uid ov db = (0, db) := by
        simp only [syncTeams, hu, hrt]
      have e2 : syncTeams env now2 uid ov db = (0, db) := by
        simp only [syncTeams, hu, hrt]
      simp [e1, e2]
    | some tok =>
      cases hf : env.fetch with
      | netErr =>
        have e1 : syncTeams env now1 uid ov db = (0, db) := by
          simp only [syncTeams, hu, hrt, hf]
        have e2 : syncTeams env now2 uid ov db = (0, db) := by
          simp only [syncTeams, hu, hrt, hf]
        simp [e1, e2]
      | notOk st =>
        have e1 : syncTeams env now1 uid ov db = (0, db) := by
          simp only [syncTeams, hu, hrt, hf]
        have e2 : syncTeams env now2 uid ov db = (0, db) := by
          simp only [syncTeams, hu, hrt, hf]
        simp [e1, e2]
      | jsonErr =>
        have e1 : syncTeams env now1 uid ov db = (0, db) := by
          simp only [syncTeams, hu, hrt, hf]
        have e2 : syncTeams env now2 uid ov db = (0, db) := by
          simp only [syncTeams, hu, hrt, hf]
        simp [e1, e2]
      | ok chatsO =>
        have hfind2 : findUser (teamsLoop now1 uid (chatsO.getD []) 0 db).2 uid
            = some user := by
          rw [findUser_users_eq (teamsLoop_dbstep now1 uid (chatsO.getD []) 0 db).users_eq]
          exact hu
        have htw := teamsLoop_twice now1 now2 uid (chatsO.getD []) 0 0 db
        by_cases hint : (user.integrations.bind fun i => i.microsoft).isSome
        · have e1 : syncTeams env now1 uid ov db
              = ((teamsLoop now1 uid (chatsO.getD []) 0 db).1,
                 stampMicrosoftLastSync
                   (teamsLoop now1 uid (chatsO.getD []) 0 db).2 uid now1) := by
            simp only [syncTeams, hu, hrt, hf]
            simp [hint]
          have hfindS : findUser (stampMicrosoftLastSync
              (teamsLoop now1 uid (chatsO.getD []) 0 db).2 uid now1) uid
              = some (setMicrosoftLastSync user now1) := by
            rw [findUser_stampMicrosoft, hfind2]
            simp [huid]
          have hrtS : resolveToken ov (microsoftAccessTokenOf (setMicrosoftLastSync user now1))
              = some tok := by
            rw [microsoftAccessTokenOf_setMicrosoft]
            exact hrt
          have hintS : ((setMicrosoftLastSync user now1).integrations.bind
              fun i => i.microsoft).isSome := by
            rw [microsoftInt_isSome_setMicrosoft]
            exact hint
          have hstamp : stampMicrosoftLastSync
              (teamsLoop now1 uid (chatsO.getD []) 0 db).2 uid now1
              = withUsers (teamsLoop now1 uid (chatsO.getD []) 0 db).2
                  ((teamsLoop now1 uid (chatsO.getD []) 0 db).2.users.map
                    (fun u => if u.id = uid then setMicrosoftLastSync u now1 else u)) := rfl
          have hloop2 : teamsLoop now2 uid (chatsO.getD []) 0
              (stampMicrosoftLastSync
                (teamsLoop now1 uid (chatsO.getD []) 0 db).2 uid now1)
              = (0, stampMicrosoftLastSync
                  (teamsLoop now1 uid (chatsO.getD []) 0 db).2 uid now1) := by
            rw [hstamp, teamsLoop_withUsers, htw]
          have e2 : syncTeams env now2 uid ov
              (stampMicrosoftLastSync
                (teamsLoop now1 uid (chatsO.getD []) 0 db).2 uid now1)
              = (0, stampMicrosoftLastSync
                  (stampMicrosoftLastSync
                    (teamsLoop now1 uid (chatsO.getD []) 0 db).2 uid now1) uid now2) := by
            simp only [syncTeams, hfindS, hrtS, hf, hloop2]
            simp [hintS]
          rw [e1, e2]
          exact ⟨rfl, by rw [stampMicrosoft_items]⟩
        · have e1 : syncTeams env now1 uid ov db
              = teamsLoop now1 uid (chatsO.getD []) 0 db := by
            simp only [syncTeams, hu, hrt, hf]
            simp [hint]
          have e2 : syncTeams env now2 uid ov
              (teamsLoop now1 uid (chatsO.getD []) 0 db).2
              = (0, (teamsLoop now1 uid (chatsO.getD []) 0 db).2) := by
            simp only [syncTeams, hfind2, hrt, hf, htw]
            simp [hint]
          simp [e1, e2]

/-- C1: for every provider sync entry point, re-running the same invocation
(same environment, i.e. an unchanged remote candidate set and classifier
behaviour) from the state produced by the first run creates zero additional
WorkItems (the item collection is unchanged) and returns 0, because every
candidate whose provider-native id was materialized by the first run is
caught by the dedup gate before any creation. The second run's clock `now2`
is arbitrary. -/
theorem sync_second_run_creates_nothing
    (p : List Char → Option Classification) (envG : GmailEnv) (envC : CalendarEnv)
    (envT : TasksEnv) (envM : TeamsEnv) (now1 now2 : Nat) (uid : String)
    (ov : Option String) (db : DB) :
    ((syncGmail p envG now2 uid ov (syncGmail p envG now1 uid ov db).2).1 = 0 ∧
      (syncGmail p envG now2 uid ov (syncGmail p envG now1 uid ov db).2).2.items
        = (syncGmail p envG now1 uid ov db).2.items) ∧
    ((syncCalendar envC now2 uid ov (syncCalendar envC now1 uid ov db).2).1 = 0 ∧
      (syncCalendar envC now2 uid ov (syncCalendar envC now1 uid ov db).2).2.items
        = (syncCalendar envC now1 uid ov db).2.items) ∧
    ((syncTasks envT now2 uid ov (syncTasks envT now1 uid ov db).2).1 = 0 ∧
      (syncTasks envT now2 uid ov (syncTasks envT now1 uid ov db).2).2.items
        = (syncTasks envT now1 uid ov db).2.items) ∧
    ((syncTeams envM now2 uid ov (syncTeams envM now1 uid ov db).2).1 = 0 ∧
      (syncTeams envM now2 uid ov (syncTeams envM now1 uid ov db).2).2.items
        = (syncTeams envM now1 uid ov db).2.items) :=
  ⟨syncGmail_twice p envG now1 now2 uid ov db,
   syncCalendar_twice envC now1 now2 uid ov db,
   syncTasks_twice envT now1 now2 uid ov db,
   syncTeams_twice envM now1 now2 uid ov db⟩

lemma gmailLoop_error_none (p : List Char → Option Classification) (env : GmailEnv)
    (now : Nat) (uid : String) :
    ∀ msgs c db, (∃ m ∈ msgs, env.details m.id = Except.error ()) →
      (gmailLoop p env now uid msgs c db).1 = none := by
  intro msgs
  induction msgs with
  | nil =>
    intro c db h
    simp at h
  | cons msg rest ih =>
    intro c db h
    simp only [gmailLoop]
    cases hd : env.details msg.id with
    | error e => rfl
    | ok d =>
      obtain ⟨m, hm, he⟩ := h
      rcases List.mem_cons.mp hm with h1 | h1
      · subst h1
        rw [hd] at he
        exact absurd he (by simp)
      · by_cases hex : existsGoogleItem db uid msg.id
        · simp only [hex, if_true]
          exact ih c db ⟨m, h1, he⟩
        · simp only [hex, if_false, Bool.false_eq_true]
          by_cases hw : (classifyAndPrioritizeEmail p (env.gen msg.id)).isWork
          · simp only [hw, if_true]
            exact ih (c + 1) _ ⟨m, h1, he⟩
          · simp only [hw, if_false, Bool.false_eq_true]
            exact ih c db ⟨m, h1, he⟩

lemma tasksOuterLoop_error_none (env : TasksEnv) (now : Nat) (uid : String) :
    ∀ lists c db, (∃ l ∈ lists, env.tasksOf l.id = Except.error ()) →
      (tasksOuterLoop env now uid lists c db).1 = none := by
  intro lists
  induction lists with
  | nil =>
    intro c db h
    simp at h
  | cons list rest ih =>
    intro c db h
    simp only [tasksOuterLoop]
    cases ht : env.tasksOf list.id with
    | error e => rfl
    | ok tasksO =>
      obtain ⟨l, hl, he⟩ := h
      rcases List.mem_cons.mp hl with h1 | h1
      · subst h1
        rw [ht] at he
        exact absurd he (by simp)
      · dsimp only
        exact ih _ _ ⟨l, h1, he⟩

lemma syncGmail_listError (p : List Char → Option Classification) (env : GmailEnv)
    (now : Nat) (uid : String) (ov : Option String) (db : DB)
    (h : env.listRes = Except.error ()) :
    syncGmail p env now uid ov db = (0, db) := by
  cases hu : findUser db uid with
  | none => simp only [syncGmail, hu]
  | some user =>
    cases hrt : resolveToken ov (googleAccessTokenOf user) with
    | none => simp only [syncGmail, hu, hrt]
    | some tok => simp only [syncGmail, hu, hrt, h]

lemma syncGmail_detailsError (p : List Char → Option Classification) (env : GmailEnv)
    (now : Nat) (uid : String) (ov : Option String) (db : DB)
    (msgsO : Option (List GmailMsg)) (m : GmailMsg)
    (h1 : env.listRes = Except.ok msgsO) (h2 : m ∈ msgsO.getD [])
    (h3 : env.details m.id = Except.error ()) :
    (syncGmail p env now uid ov db).1 = 0 := by
  cases hu : findUser db uid with
  | none => simp only [syncGmail, hu]
  | some user =>
    cases hrt : resolveToken ov (googleAccessTokenOf user) with
    | none => simp only [syncGmail, hu, hrt]
    | some tok =>
      simp only [syncGmail, hu, hrt, h1]
      rw [gmailLoop_error_none p env now uid (msgsO.getD []) 0 db ⟨m, h2, h3⟩]

lemma syncCalendar_listError (env : CalendarEnv) (now : Nat) (uid : String)
    (ov : Option String) (db : DB) (h : env.listRes = Except.error ()) :
    syncCalendar env now uid ov db = (0, db) := by
  cases hu : findUser db uid with
  | none => simp only [syncCalendar, hu]
  | some user =>
    cases hrt : resolveToken ov (googleAccessTokenOf user) with
    | none => simp only [syncCalendar, hu, hrt]
    | some tok => simp only [syncCalendar, hu, hrt, h]

lemma syncTasks_listsError (env : TasksEnv) (now : Nat) (uid : String)
    (ov : Option String) (db : DB) (h : env.listsRes = Except.error ()) :
    syncTasks env now uid ov db = (0, db) := by
  cases hu : findUser db uid with
  | none => simp only [syncTasks, hu]
  | some user =>
    cases hrt : resolveToken ov (googleAccessTokenOf user) with
    | none => simp only [syncTasks, hu, hrt]
    | some tok => simp only [syncTasks, hu, hrt, h]

lemma syncTasks_tasksError (env : TasksEnv) (now : Nat) (uid : String)
    (ov : Option String) (db : DB) (listsO : Option (List TaskList)) (l : TaskList)
    (h1 : env.listsRes = Except.ok listsO) (h2 : l ∈ listsO.getD [])
    (h3 : env.tasksOf l.id = Except.error ()) :
    (syncTasks env now uid ov db).1 = 0 := by
  cases hu : findUser db uid with
  | none => simp only [syncTasks, hu]
  | some user =>
    cases hrt : resolveToken ov (googleAccessTokenOf user) with
    | none => simp only [syncTasks, hu, hrt]
    | some tok =>
      simp only [syncTasks, hu, hrt, h1]
      rw [tasksOuterLoop_error_none env now uid (listsO.getD []) 0 db ⟨l, h2, h3⟩]

lemma syncTeams_fetchFail (env : TeamsEnv) (now : Nat) (uid : String)
    (ov : Option String) (db : DB)
    (h : ∀ chatsO, env.fetch ≠ TeamsFetchRes.ok chatsO) :
    syncTeams env now uid ov db = (0, db) := by
  cases hu : findUser db uid with
  | none => simp only [syncTeams, hu]
  | some user =>
    cases hrt : resolveToken ov (microsoftAccessTokenOf user) with
    | none => simp only [syncTeams, hu, hrt]
    | some tok =>
      cases hf : env.fetch with
      | netErr => simp only [syncTeams, hu, hrt, hf]
      | notOk st => simp only [syncTeams, hu, hrt, hf]
      | jsonErr => simp only [syncTeams, hu, hrt, hf]
      | ok chatsO => exact absurd hf (h chatsO)

lemma syncGmail_items_ext (p : List Char → Option Classification) (env : GmailEnv)
    (now : Nat) (uid : String) (ov : Option String) (db : DB) :
    ∃ new, (syncGmail p env now uid ov db).2.items = db.items ++ new := by
  cases hu : findUser db uid with
  | none => exact ⟨[], by simp [syncGmail, hu]⟩
  | some user =>
    cases hrt : resolveToken ov (googleAccessTokenOf user) with
    | none => exact ⟨[], by simp [syncGmail, hu, hrt]⟩
    | some tok =>
      cases hlr : env.listRes with
      | error er => exact ⟨[], by simp [syncGmail, hu, hrt, hlr]⟩
      | ok msgsO =>
        obtain ⟨new, hn⟩ := (gmailLoop_dbstep p env now uid (msgsO.getD []) 0 db).items_ext
        refine ⟨new, ?_⟩
        simp only [syncGmail, hu, hrt, hlr]
        cases hL : (gmailLoop p env now uid (msgsO.getD []) 0 db).1 with
        | none => exact hn
        | some count =>
          by_cases hint : (user.integrations.bind fun i => i.google).isSome
          · simp only [hint, if_true]
            rw [stampGoogle_items]
            exact hn
          · simp only [hint, if_false, Bool.false_eq_true]
            exact hn

lemma syncCalendar_items_ext (env : CalendarEnv) (now : Nat) (uid : String)
    (ov : Option String) (db : DB) :
    ∃ new, (syncCalendar env now uid ov db).2.items = db.items ++ new := by
  cases hu : findUser db uid with
  | none => exact ⟨[], by simp [syncCalendar, hu]⟩
  | some user =>
    cases hrt : resolveToken ov (googleAccessTokenOf user) with
    | none => exact ⟨[], by simp [syncCalendar, hu, hrt]⟩
    | some tok =>
      cases hlr : env.listRes with
      | error er => exact ⟨[], by simp [syncCalendar, hu, hrt, hlr]⟩
      | ok evO =>
        obtain ⟨new, hn⟩ := (calendarLoop_dbstep now uid (evO.getD []) 0 db).items_ext
        refine ⟨new, ?_⟩
        simp only [syncCalendar, hu, hrt, hlr]
        exact hn

lemma syncTasks_items_ext (env : TasksEnv) (now : Nat) (uid : String)
    (ov : Option String) (db : DB) :
    ∃ new, (syncTasks env now uid ov db).2.items = db.items ++ new := by
  cases hu : findUser db uid with
  | none => exact ⟨[], by simp [syncTasks, hu]⟩
  | some user =>
    cases hrt : resolveToken ov (googleAccessTokenOf user) with
    | none => exact ⟨[], by simp [syncTasks, hu, hrt]⟩
    | some tok =>
      cases hlr : env.listsRes with
      | error er => exact ⟨[], by simp [syncTasks, hu, hrt, hlr]⟩
      | ok listsO =>
        obtain ⟨new, hn⟩ := (tasksOuterLoop_dbstep env now uid (listsO.getD []) 0 db).items_ext
        refine ⟨new, ?_⟩
        simp only [syncTasks, hu, hrt, hlr]
        cases hL : (tasksOuterLoop env now uid (listsO.getD []) 0 db).1 with
        | none => exact hn
        | some count => exact hn

lemma syncTeams_items_ext (env : TeamsEnv) (now : Nat) (uid : String)
    (ov : Option String) (db : DB) :
    ∃ new, (syncTeams env now uid ov db).2.items = db.items ++ new := by
  cases hu : findUser db uid with
  | none => exact ⟨[], by simp [syncTeams, hu]⟩
  | some user =>
    cases hrt : resolveToken ov (microsoftAccessTokenOf user) with
    | none => exact ⟨[], by simp [syncTeams, hu, hrt]⟩
    | some tok =>
      cases hf : env.fetch with
      | netErr => exact ⟨[], by simp [syncTeams, hu, hrt, hf]⟩
      | notOk st => exact ⟨[], by simp [syncTeams, hu, hrt, hf]⟩
      | jsonErr => exact ⟨[], by simp [syncTeams, hu, hrt, hf]⟩
      | ok chatsO =>
        obtain ⟨new, hn⟩ := (teamsLoop_dbstep now uid (chatsO.getD []) 0 db).items_ext
        refine ⟨new, ?_⟩
        simp only [syncTeams, hu, hrt, hf]
        by_cases hint : (user.integrations.bind fun i => i.microsoft).isSome
        · simp only [hint, if_true]
          rw [stampMicrosoft_items]
          exact hn
        · simp only [hint, if_false, Bool.false_eq_true]
          exact hn

lemma gmailLoop_abort_keeps_prefix (p : List Char → Option Classification)
    (env : GmailEnv) (now : Nat) (uid : String) (m : GmailMsg)
    (hm : env.details m.id = Except.error ()) :
    ∀ pre post c db,
      gmailLoop p env now uid (pre ++ m :: post) c db
        = (none, (gmailLoop p env now uid pre c db).2) := by
  intro pre
  induction pre with
  | nil =>
    intro post c db
    simp [gmailLoop, hm]
  | cons x pre' ih =>
    intro post c db
    simp only [List.cons_append, gmailLoop]
    cases hd : env.details x.id with
    | error e => rfl
    | ok d =>
      by_cases hex : existsGoogleItem db uid x.id
      · simp only [hex, if_true]
        exact ih post c db
      · simp only [hex, if_false, Bool.false_eq_true]
        by_cases hw : (classifyAndPrioritizeEmail p (env.gen x.id)).isWork
        · simp only [hw, if_true]
          exact ih post (c + 1) _
        · simp only [hw, if_false, Bool.false_eq_true]
          exact ih post c db

lemma tasksOuterLoop_abort_keeps_prefix (env : TasksEnv) (now : Nat) (uid : String)
    (l : TaskList) (hl : env.tasksOf l.id = Except.error ()) :
    ∀ pre post c db,
      tasksOuterLoop env now uid (pre ++ l :: post) c db
        = (none, (tasksOuterLoop env now uid pre c db).2) := by
  intro pre
  induction pre with
  | nil =>
    intro post c db
    simp [tasksOuterLoop, hl]
  | cons x pre' ih =>
    intro post c db
    simp only [List.cons_append, tasksOuterLoop]
    cases ht : env.tasksOf x.id with
    | error e => rfl
    | ok tasksO =>
      dsimp only
      exact ih post _ _

lemma syncGmail_abort_keeps (p : List Char → Option Classification) (env : GmailEnv)
    (now : Nat) (uid : String) (ov : Option String) (db : DB) (u : User) (tok : String)
    (msgsO : Option (List GmailMsg)) (pre : List GmailMsg) (m : GmailMsg)
    (post : List GmailMsg)
    (hu : findUser db uid = some u)
    (hrt : resolveToken ov (googleAccessTokenOf u) = some tok)
    (hlr : env.listRes = Except.ok msgsO)
    (hsplit : msgsO.getD [] = pre ++ m :: post)
    (hm : env.details m.id = Except.error ()) :
    syncGmail p env now uid ov db = (0, (gmailLoop p env now uid pre 0 db).2) := by
  simp only [syncGmail, hu, hrt, hlr]
  rw [hsplit, gmailLoop_abort_keeps_prefix p env now uid m hm pre post 0 db]

lemma syncTasks_abort_keeps (env : TasksEnv) (now : Nat) (uid : String)
    (ov : Option String) (db : DB) (u : User) (tok : String)
    (listsO : Option (List TaskList)) (pre : List TaskList) (l : TaskList)
    (post : List TaskList)
    (hu : findUser db uid = some u)
    (hrt : resolveToken ov (googleAccessTokenOf u) = some tok)
    (hlr : env.listsRes = Except.ok listsO)
    (hsplit : listsO.getD [] = pre ++ l :: post)
    (hl : env.tasksOf l.id = Except.error ()) :
    syncTasks env now uid ov db = (0, (tasksOuterLoop env now uid pre 0 db).2) := by
  simp only [syncTasks, hu, hrt, hlr]
  rw [hsplit, tasksOuterLoop_abort_keeps_prefix env now uid l hl pre post 0 db]

/-- C5: no sync entry point throws (each embedding is a total function into
a count and a state), and every error yields a returned count of 0: a
failing list/fetch call or a non-success remote status returns `(0, db)`
with the state untouched, while an error inside the candidate loop (the
per-message details call for Gmail, the per-list tasks call for Tasks)
returns 0 with the final state EQUAL to the state produced by processing
exactly the candidates before the failing one — so WorkItems committed for
earlier candidates are kept, not rolled back (a rollback implementation
would return the entry state instead). The item collection moreover always
extends the initial one. -/
theorem sync_errors_return_zero_partial_kept
    (p : List Char → Option Classification) (envG : GmailEnv) (envC : CalendarEnv)
    (envT : TasksEnv) (envM : TeamsEnv) (now : Nat) (uid : String)
    (ov : Option String) (db : DB) :
    ((envG.listRes = Except.error () → syncGmail p envG now uid ov db = (0, db)) ∧
      (∀ msgsO m, envG.listRes = Except.ok msgsO → m ∈ msgsO.getD [] →
        envG.details m.id = Except.error () → (syncGmail p envG now uid ov db).1 = 0) ∧
      (∀ u tok msgsO pre m post, findUser db uid = some u →
        resolveToken ov (googleAccessTokenOf u) = some tok →
        envG.listRes = Except.ok msgsO → msgsO.getD [] = pre ++ m :: post →
        envG.details m.id = Except.error () →
        syncGmail p envG now uid ov db = (0, (gmailLoop p envG now uid pre 0 db).2)) ∧
      (∃ new, (syncGmail p envG now uid ov db).2.items = db.items ++ new)) ∧
    ((envC.listRes = Except.error () → syncCalendar envC now uid ov db = (0, db)) ∧
      (∃ new, (syncCalendar envC now uid ov db).2.items = db.items ++ new)) ∧
    ((envT.listsRes = Except.error () → syncTasks envT now uid ov db = (0, db)) ∧
      (∀ listsO l, envT.listsRes = Except.ok listsO → l ∈ listsO.getD [] →
        envT.tasksOf l.id = Except.error () → (syncTasks envT now uid ov db).1 = 0) ∧
      (∀ u tok listsO pre l post, findUser db uid = some u →
        resolveToken ov (googleAccessTokenOf u) = some tok →
        envT.listsRes = Except.ok listsO → listsO.getD [] = pre ++ l :: post →
        envT.tasksOf l.id = Except.error () →
        syncTasks envT now uid ov db = (0, (tasksOuterLoop envT now uid pre 0 db).2)) ∧
      (∃ new, (syncTasks envT now uid ov db).2.items = db.items ++ new)) ∧
    (((∀ chatsO, envM.fetch ≠ TeamsFetchRes.ok chatsO) →
        syncTeams envM now uid ov db = (0, db)) ∧
      (∃ new, (syncTeams envM now uid ov db).2.items = db.items ++ new)) :=
  ⟨⟨fun h => syncGmail_listError p envG now uid ov db h,
    fun msgsO m h1 h2 h3 => syncGmail_detailsError p envG now uid ov db msgsO m h1 h2 h3,
    fun u tok msgsO pre m post hu hrt hlr hsplit hm =>
      syncGmail_abort_keeps p envG now uid ov db u tok msgsO pre m post hu hrt hlr hsplit hm,
    syncGmail_items_ext p envG now uid ov db⟩,
   ⟨fun h => syncCalendar_listError envC now uid ov db h,
    syncCalendar_items_ext envC now uid ov db⟩,
   ⟨fun h => syncTasks_listsError envT now uid ov db h,
    fun listsO l h1 h2 h3 => syncTasks_tasksError envT now uid ov db listsO l h1 h2 h3,
    fun u tok listsO pre l post hu hrt hlr hsplit hl =>
      syncTasks_abort_keeps envT now uid ov db u tok listsO pre l post hu hrt hlr hsplit hl,
    syncTasks_items_ext envT now uid ov db⟩,
   ⟨fun h => syncTeams_fetchFail envM now uid ov db h,
    syncTeams_items_ext envM now uid ov db⟩⟩

theorem sync_errors_return_zero_partial_kept_witness :
    (syncGmail parseWork gmailEnv0 10 "u" none db0
      = (0, (gmailLoop parseWork gmailEnv0 10 "u" [{ id := "m1" }] 0 db0).2)) ∧
    existsGoogleItem (syncGmail parseWork gmailEnv0 10 "u" none db0).2 "u" "m1" = true ∧
    (syncGmail parseWork gmailEnv0 10 "u" none db0).2.items.length = 1 ∧
    (syncGmail parseWork gmailEnv0 10 "u" none db0).1 = 0 ∧
    syncCalendar calEnvErr 10 "u" none db0 = (0, db0) ∧
    (syncTasks tasksEnv0 10 "u" none db0).1 = 0 ∧
    syncTeams teamsEnvBad 10 "u" none db0 = (0, db0) :=
  ⟨(sync_errors_return_zero_partial_kept parseWork gmailEnv0 calEnvErr tasksEnv0
      teamsEnvBad 10 "u" none db0).1.2.2.1 user0 "tok"
      (some [{ id := "m1" }, { id := "m2" }]) [{ id := "m1" }] { id := "m2" } []
      (by decide) (by decide) rfl (by decide) rfl,
   by decide,
   by decide,
   (sync_errors_return_zero_partial_kept parseWork gmailEnv0 calEnvErr tasksEnv0
      teamsEnvBad 10 "u" none db0).1.2.1 (some [{ id := "m1" }, { id := "m2" }])
      { id := "m2" } rfl (by decide) rfl,
   (sync_errors_return_zero_partial_kept parseWork gmailEnv0 calEnvErr tasksEnv0
      teamsEnvBad 10 "u" none db0).2.1.1 rfl,
   (sync_errors_return_zero_partial_kept parseWork gmailEnv0 calEnvErr tasksEnv0
      teamsEnvBad 10 "u" none db0).2.2.1.2.1 (some [{ id := "l1" }]) { id := "l1" }
      rfl (by decide) rfl,
   (sync_errors_return_zero_partial_kept parseWork gmailEnv0 calEnvErr tasksEnv0
      teamsEnvBad 10 "u" none db0).2.2.2.1
      (fun chatsO hh => by
        rw [show teamsEnvBad.fetch = TeamsFetchRes.notOk 500 from rfl] at hh
        exact TeamsFetchRes.noConfusion hh)⟩

/-- C7: when no access token is available for the provider (the override
token is falsy and the stored token of the user, if any, is falsy), the sync
entry point returns 0 with the state unchanged, for every remote environment
whatsoever — i.e. the result does not depend on the remote service at all,
so no remote request is issued. Google-token providers (Gmail, Calendar,
Tasks) and the Microsoft-token provider (Teams) are covered separately. -/
theorem sync_missing_token_no_remote_call (now : Nat) (uid : String)
    (ov : Option String) (db : DB) :
    ((∀ u, findUser db uid = some u → resolveToken ov (googleAccessTokenOf u) = none) →
      (∀ (p : List Char → Option Classification) (envG : GmailEnv),
        syncGmail p envG now uid ov db = (0, db)) ∧
      (∀ envC : CalendarEnv, syncCalendar envC now uid ov db = (0, db)) ∧
      (∀ envT : TasksEnv, syncTasks envT now uid ov db = (0, db))) ∧
    ((∀ u, findUser db uid = some u → resolveToken ov (microsoftAccessTokenOf u) = none) →
      ∀ envM : TeamsEnv, syncTeams envM now uid ov db = (0, db)) := by
  constructor
  · intro h
    refine ⟨?_, ?_, ?_⟩
    · intro p envG
      cases hu : findUser db uid with
      | none => simp only [syncGmail, hu]
      | some u => simp only [syncGmail, hu, h u hu]
    · intro envC
      cases hu : findUser db uid with
      | none => simp only [syncCalendar, hu]
      | some u => simp only [syncCalendar, hu, h u hu]
    · intro envT
      cases hu : findUser db uid with
      | none => simp only [syncTasks, hu]
      | some u => simp only [syncTasks, hu, h u hu]
  · intro h envM
    cases hu : findUser db uid with
    | none => simp only [syncTeams, hu]
    | some u => simp only [syncTeams, hu, h u hu]

theorem sync_missing_token_no_remote_call_witness :
    syncGmail parse0 gmailEnvOk 0 "v" none dbNoTok = (0, dbNoTok) ∧
    syncTeams teamsEnv0 0 "v" none dbNoTok = (0, dbNoTok) := by
  have hg : ∀ u, findUser dbNoTok "v" = some u →
      resolveToken none (googleAccessTokenOf u) = none := by
    intro u hu
    have h2 : findUser dbNoTok "v" = some userNoTok := by decide
    rw [h2] at hu
    injection hu with h3
    subst h3
    decide
  have hm : ∀ u, findUser dbNoTok "v" = some u →
      resolveToken none (microsoftAccessTokenOf u) = none := by
    intro u hu
    have h2 : findUser dbNoTok "v" = some userNoTok := by decide
    rw [h2] at hu
    injection hu with h3
    subst h3
    decide
  exact ⟨((sync_missing_token_no_remote_call 0 "v" none dbNoTok).1 hg).1 parse0 gmailEnvOk,
         (sync_missing_token_no_remote_call 0 "v" none dbNoTok).2 hm teamsEnv0⟩

/-- C10: `syncTeams` silently drops any chat whose `lastMessagePreview` is
absent, or whose `body` or `body.content` is absent: for such a chat the
loop iteration is exactly the loop on the remaining chats — nothing is
looked up or created (the iteration does not depend on the stored items at
all) and the chat contributes 0 to the count. -/
theorem teams_drops_previewless_chats (now : Nat) (uid : String) (chat : TeamsChat)
    (h : chat.lastMessagePreview = none ∨
      (∃ lm, chat.lastMessagePreview = some lm ∧ lm.body = none) ∨
      (∃ lm b, chat.lastMessagePreview = some lm ∧ lm.body = some b ∧
        b.content = none)) :
    ∀ rest c db, teamsLoop now uid (chat :: rest) c db = teamsLoop now uid rest c db := by
  have hpv : teamsPreviewContent chat = none := by
    rcases h with h | ⟨lm, h1, h2⟩ | ⟨lm, b, h1, h2, h3⟩
    · simp [teamsPreviewContent, h]
    · simp [teamsPreviewContent, h1, h2]
    · simp [teamsPreviewContent, h1, h2, h3]
  intro rest c db
  simp only [teamsLoop, hpv]

theorem teams_drops_previewless_chats_witness :
    teamsLoop 0 "u" [chatNoPreview] 0 db0 = teamsLoop 0 "u" [] 0 db0 :=
  teams_drops_previewless_chats 0 "u" chatNoPreview (Or.inl rfl) [] 0 db0

lemma threadPriMono_refl (db : DB) : threadPriMono db db :=
  fun _ t ht => ⟨t, ht, Or.inl rfl⟩

lemma syncGmail_threadPri (p : List Char → Option Classification) (env : GmailEnv)
    (now : Nat) (uid : String) (ov : Option String) (db : DB) :
    threadPriMono db (syncGmail p env now uid ov db).2 := by
  cases hu : findUser db uid with
  | none =>
    simp only [syncGmail, hu]
    exact threadPriMono_refl db
  | some user =>
    cases hrt : resolveToken ov (googleAccessTokenOf user) with
    | none =>
      simp only [syncGmail, hu, hrt]
      exact threadPriMono_refl db
    | some tok =>
      cases hlr : env.listRes with
      | error er =>
        simp only [syncGmail, hu, hrt, hlr]
        exact threadPriMono_refl db
      | ok msgsO =>
        simp only [syncGmail, hu, hrt, hlr]
        cases hL : (gmailLoop p env now uid (msgsO.getD []) 0 db).1 with
        | none => exact (gmailLoop_dbstep p env now uid (msgsO.getD []) 0 db).thread_pri
        | some count =>
          by_cases hint : (user.integrations.bind fun i => i.google).isSome
          · simp only [hint, if_true]
            intro tid t ht
            obtain ⟨t', ht', hp⟩ :=
              (gmailLoop_dbstep p env now uid (msgsO.getD []) 0 db).thread_pri tid t ht
            exact ⟨t', ht', hp⟩
          · simp only [hint, if_false, Bool.false_eq_true]
            exact (gmailLoop_dbstep p env now uid (msgsO.getD []) 0 db).thread_pri

lemma syncCalendar_threadPri (env : CalendarEnv) (now : Nat) (uid : String)
    (ov : Option String) (db : DB) :
    threadPriMono db (syncCalendar env now uid ov db).2 := by
  cases hu : findUser db uid with
  | none =>
    simp only [syncCalendar, hu]
    exact threadPriMono_refl db
  | some user =>
    cases hrt : resolveToken ov (googleAccessTokenOf user) with
    | none =>
      simp only [syncCalendar, hu, hrt]
      exact threadPriMono_refl db
    | some tok =>
      cases hlr : env.listRes with
      | error er =>
        simp only [syncCalendar, hu, hrt, hlr]
        exact threadPriMono_refl db
      | ok evO =>
        simp only [syncCalendar, hu, hrt, hlr]
        exact (calendarLoop_dbstep now uid (evO.getD []) 0 db).thread_pri

lemma syncTasks_threadPri (env : TasksEnv) (now : Nat) (uid : String)
    (ov : Option String) (db : DB) :
    threadPriMono db (syncTasks env now uid ov db).2 := by
  cases hu : findUser db uid with
  | none =>
    simp only [syncTasks, hu]
    exact threadPriMono_refl db
  | some user =>
    cases hrt : resolveToken ov (googleAccessTokenOf user) with
    | none =>
      simp only [syncTasks, hu, hrt]
      exact threadPriMono_refl db
    | some tok =>
      cases hlr : env.listsRes with
      | error er =>
        simp only [syncTasks, hu, hrt, hlr]
        exact threadPriMono_refl db
      | ok listsO =>
        simp only [syncTasks, hu, hrt, hlr]
        cases hL : (tasksOuterLoop env now uid (listsO.getD []) 0 db).1 with
        | none => exact (tasksOuterLoop_dbstep env now uid (listsO.getD []) 0 db).thread_pri
        | some count => exact (tasksOuterLoop_dbstep env now uid (listsO.getD []) 0 db).thread_pri

lemma syncTeams_threadPri (env : TeamsEnv) (now : Nat) (uid : String)
    (ov : Option String) (db : DB) :
    threadPriMono db (syncTeams env now uid ov db).2 := by
  cases hu : findUser db uid with
  | none =>
    simp only [syncTeams, hu]
    exact threadPriMono_refl db
  | some user =>
    cases hrt : resolveToken ov (microsoftAccessTokenOf user) with
    | none =>
      simp only [syncTeams, hu, hrt]
      exact threadPriMono_refl db
    | some tok =>
      cases hf : env.fetch with
      | netErr =>
        simp only [syncTeams, hu, hrt, hf]
        exact threadPriMono_refl db
      | notOk st =>
        simp only [syncTeams, hu, hrt, hf]
        exact threadPriMono_refl db
      | jsonErr =>
        simp only [syncTeams, hu, hrt, hf]
        exact threadPriMono_refl db
      | ok chatsO =>
        simp only [syncTeams, hu, hrt, hf]
        by_cases hint : (user.integrations.bind fun i => i.microsoft).isSome
        · simp only [hint, if_true]
          intro tid t ht
          obtain ⟨t', ht', hp⟩ :=
            (teamsLoop_dbstep now uid (chatsO.getD []) 0 db).thread_pri tid t ht
          exact ⟨t', ht', hp⟩
        · simp only [hint, if_false, Bool.false_eq_true]
          exact (teamsLoop_dbstep now uid (chatsO.getD []) 0 db).thread_pri

/-- C9: no sync cycle ever downgrades a thread's priority: for each of the
four entry points and every thread present before the cycle, the thread is
still present afterwards and its priority is either unchanged or `high`
(escalation to `high` is the only possible change; in the code it is
triggered exactly when a newly created Gmail item is classified `high`). -/
theorem sync_thread_priority_monotone (p : List Char → Option Classification)
    (envG : GmailEnv) (envC : CalendarEnv) (envT : TasksEnv) (envM : TeamsEnv)
    (now : Nat) (uid : String) (ov : Option String) (db : DB) :
    threadPriMono db (syncGmail p envG now uid ov db).2 ∧
    threadPriMono db (syncCalendar envC now uid ov db).2 ∧
    threadPriMono db (syncTasks envT now uid ov db).2 ∧
    threadPriMono db (syncTeams envM now uid ov db).2 :=
  ⟨syncGmail_threadPri p envG now uid ov db,
   syncCalendar_threadPri envC now uid ov db,
   syncTasks_threadPri envT now uid ov db,
   syncTeams_threadPri envM now uid ov db⟩

theorem sync_thread_priority_monotone_witness :
    ∃ t', getThreadById (syncCalendar calEnv0 10 "u" none db1t).2 0 = some t' ∧
      (t'.priority = thread0.priority ∨ t'.priority = Priority.high) :=
  (sync_thread_priority_monotone parse0 gmailEnvOk calEnv0 tasksEnvOk teamsEnv0
    10 "u" none db1t).2.1 0 thread0 (by decide)

lemma setGoogleLastSync_eq {u : User} {ig : Integrations} {g : Creds}
    (hig : u.integrations = some ig) (hg : ig.google = some g) (now : Nat) :
    setGoogleLastSync u now
      = { u with integrations := some { ig with google := some { g with lastSync := some now } } } := by
  obtain ⟨uid0, igo⟩ := u
  dsimp only at hig
  subst hig
  obtain ⟨go, mo⟩ := ig
  dsimp only at hg
  subst hg
  rfl

lemma setMicrosoftLastSync_eq {u : User} {ig : Integrations} {m : Creds}
    (hig : u.integrations = some ig) (hm : ig.microsoft = some m) (now : Nat) :
    setMicrosoftLastSync u now
      = { u with integrations := some { ig with microsoft := some { m with lastSync := some now } } } := by
  obtain ⟨uid0, igo⟩ := u
  dsimp only at hig
  subst hig
  obtain ⟨go, mo⟩ := ig
  dsimp only at hm
  subst hm
  rfl

lemma syncCalendar_users (env : CalendarEnv) (now : Nat) (uid : String)
    (ov : Option String) (db : DB) :
    (syncCalendar env now uid ov db).2.users = db.users := by
  cases hu : findUser db uid with
  | none => simp [syncCalendar, hu]
  | some user =>
    cases hrt : resolveToken ov (googleAccessTokenOf user) with
    | none => simp [syncCalendar, hu, hrt]
    | some tok =>
      cases hlr : env.listRes with
      | error er => simp [syncCalendar, hu, hrt, hlr]
      | ok evO =>
        simp only [syncCalendar, hu, hrt, hlr]
        exact (calendarLoop_dbstep now uid (evO.getD []) 0 db).users_eq

lemma syncTasks_users (env : TasksEnv) (now : Nat) (uid : String)
    (ov : Option String) (db : DB) :
    (syncTasks env now uid ov db).2.users = db.users := by
  cases hu : findUser db uid with
  | none => simp [syncTasks, hu]
  | some user =>
    cases hrt : resolveToken ov (googleAccessTokenOf user) with
    | none => simp [syncTasks, hu, hrt]
    | some tok =>
      cases hlr : env.listsRes with
      | error er => simp [syncTasks, hu, hrt, hlr]
      | ok listsO =>
        simp only [syncTasks, hu, hrt, hlr]
        cases hL : (tasksOuterLoop env now uid (listsO.getD []) 0 db).1 with
        | none => exact (tasksOuterLoop_dbstep env now uid (listsO.getD []) 0 db).users_eq
        | some count => exact (tasksOuterLoop_dbstep env now uid (listsO.getD []) 0 db).users_eq

/-- C3 counterexample: a fully successful `syncCalendar` cycle (two events
fetched, two items created, return value 2) leaves the stored google
credentials untouched: `lastSync` is still its old value 5, not the current
clock 10 the claim requires to be stamped. -/
theorem calendar_does_not_stamp_lastsync_counterexample :
    (syncCalendar calEnv0 10 "u" none db0).1 = 2 ∧
    ((findUser (syncCalendar calEnv0 10 "u" none db0).2 "u").bind
      (fun u => (u.integrations.bind fun i => i.google).bind fun g => g.lastSync))
      = some 5 ∧
    (5 : Nat) ≠ 10 := by
  decide

/-- C3 amended: only `syncGmail` and `syncTeams` stamp the provider's
`lastSync = now` on full success (changing nothing else on the stored
credentials: the updated user differs from the loaded one only in that one
field); `syncCalendar` and `syncTasks` never modify the user collection at
all. -/
theorem only_gmail_and_teams_stamp_lastsync (p : List Char → Option Classification)
    (envG : GmailEnv) (envM : TeamsEnv) (now : Nat) (uid : String)
    (ov : Option String) (db : DB) :
    (∀ u ig g msgsO count tok, findUser db uid = some u →
      u.integrations = some ig → ig.google = some g →
      resolveToken ov (googleAccessTokenOf u) = some tok →
      envG.listRes = Except.ok msgsO →
      (gmailLoop p envG now uid (msgsO.getD []) 0 db).1 = some count →
      findUser (syncGmail p envG now uid ov db).2 uid
        = some { u with integrations := some { ig with google := some { g with lastSync := some now } } }) ∧
    (∀ u ig m chatsO tok, findUser db uid = some u →
      u.integrations = some ig → ig.microsoft = some m →
      resolveToken ov (microsoftAccessTokenOf u) = some tok →
      envM.fetch = TeamsFetchRes.ok chatsO →
      findUser (syncTeams envM now uid ov db).2 uid
        = some { u with integrations := some { ig with microsoft := some { m with lastSync := some now } } }) ∧
    (∀ envC : CalendarEnv, (syncCalendar envC now uid ov db).2.users = db.users) ∧
    (∀ envT : TasksEnv, (syncTasks envT now uid ov db).2.users = db.users) := by
  refine ⟨?_, ?_, ?_, ?_⟩
  · intro u ig g msgsO count tok hu hig hg hrt hlr hL
    have huid : u.id = uid := findUser_id hu
    have hint : (u.integrations.bind fun i => i.google).isSome := by
      rw [hig]
      simp [hg]
    have hfind2 : findUser (gmailLoop p envG now uid (msgsO.getD []) 0 db).2 uid
        = some u := by
      rw [findUser_users_eq (gmailLoop_dbstep p envG now uid (msgsO.getD []) 0 db).users_eq]
      exact hu
    simp only [syncGmail, hu, hrt, hlr]
    rw [hL]
    simp only [hint, if_true]
    rw [findUser_stampGoogle, hfind2]
    simp only [Option.map_some', huid, if_true]
    rw [setGoogleLastSync_eq hig hg]
    simp [huid]
  · intro u ig m chatsO tok hu hig hm hrt hf
    have huid : u.id = uid := findUser_id hu
    have hint : (u.integrations.bind fun i => i.microsoft).isSome := by
      rw [hig]
      simp [hm]
    have hfind2 : findUser (teamsLoop now uid (chatsO.getD []) 0 db).2 uid = some u := by
      rw [findUser_users_eq (teamsLoop_dbstep now uid (chatsO.getD []) 0 db).users_eq]
      exact hu
    simp only [syncTeams, hu, hrt, hf]
    simp only [hint, if_true]
    rw [findUser_stampMicrosoft, hfind2]
    simp only [Option.map_some', huid, if_true]
    rw [setMicrosoftLastSync_eq hig hm]
    simp [huid]
  · exact fun envC => syncCalendar_users envC now uid ov db
  · exact fun envT => syncTasks_users envT now uid ov db

theorem only_gmail_and_teams_stamp_lastsync_witness :
    findUser (syncGmail parseWork gmailEnvOk 10 "u" none db0).2 "u"
      = some { id := "u"
               integrations := some
                 { google := some { accessToken := some "tok", refreshToken := none
                                    lastSync := some 10 }
                   microsoft := some { accessToken := some "mtok", refreshToken := none
                                       lastSync := some 5 } } } := by
  exact (only_gmail_and_teams_stamp_lastsync parseWork gmailEnvOk teamsEnv0 10 "u"
    none db0).1 user0
    { google := some { accessToken := some "tok", lastSync := some 5 }
      microsoft := some { accessToken := some "mtok", lastSync := some 5 } }
    { accessToken := some "tok", lastSync := some 5 }
    (some [{ id := "m1" }]) 1 "tok"
    (by decide) (by decide) (by decide) (by decide) rfl (by decide)

lemma update_idempotent (db : DB) (tid i now : Nat) (b : Bool) :
    workThreadFindByIdAndUpdate (workThreadFindByIdAndUpdate db tid i now b) tid i now b
      = workThreadFindByIdAndUpdate db tid i now b := by
  unfold workThreadFindByIdAndUpdate
  congr 1
  rw [List.map_map]
  apply List.map_congr_left
  intro t _
  simp only [Function.comp_apply]
  by_cases h : t.id = tid
  · have hmem : i ∈ (if i ∈ t.itemIds then t.itemIds else t.itemIds ++ [i]) := by
      by_cases hm : i ∈ t.itemIds <;> simp [hm]
    simp only [h, if_true]
    simp only [hmem, if_true]
    cases b <;> simp
  · simp [h]

lemma ingestItem_count_once {db : DB} {uid : String} {now : Nat}
    {mk : Nat → NewItem} {b : Bool} (hF : FreshIds db) :
    ∃ t', getThreadById (ingestItem db uid now mk b).2.2 (ingestItem db uid now mk b).2.1
        = some t' ∧
      t'.itemIds.count (ingestItem db uid now mk b).1.id = 1 ∧
      t'.lastActivity = now := by
  obtain ⟨t1, ht1⟩ := getOrCreate_exists_thread db uid now
  have hF1 : FreshIds (getOrCreateExternalThread db uid now).2 := getOrCreate_fresh hF
  have ht1' := ht1
  unfold getThreadById at ht1'
  have ht1mem : t1 ∈ (getOrCreateExternalThread db uid now).2.threads :=
    List.mem_of_find?_eq_some ht1'
  have ht1id : t1.id = (getOrCreateExternalThread db uid now).1 := by
    simpa using find?_some_pred ht1'
  have hnm : (createItem (getOrCreateExternalThread db uid now).2
      (mk (getOrCreateExternalThread db uid now).1)).1.id ∉ t1.itemIds := by
    rw [createItem_id]
    intro hmem
    exact absurd (hF1 t1 ht1mem _ hmem) (lt_irrefl _)
  have hgt : getThreadById (createItem (getOrCreateExternalThread db uid now).2
      (mk (getOrCreateExternalThread db uid now).1)).2
      (getOrCreateExternalThread db uid now).1 = some t1 := by
    rw [getThreadById_createItem]
    exact ht1
  rw [ingestItem_db, ingestItem_tid, ingestItem_fst]
  rw [update_getThreadById, hgt, Option.map_some']
  refine ⟨_, rfl, ?_, ?_⟩
  · rw [if_pos ht1id]
    dsimp only
    rw [if_neg hnm, List.count_append, List.count_eq_zero.mpr hnm]
    simp
  · rw [if_pos ht1id]

lemma syncGmail_fresh (p : List Char → Option Classification) (env : GmailEnv)
    (now : Nat) (uid : String) (ov : Option String) {db : DB} (hF : FreshIds db) :
    FreshIds (syncGmail p env now uid ov db).2 := by
  cases hu : findUser db uid with
  | none =>
    simp only [syncGmail, hu]
    exact hF
  | some user =>
    cases hrt : resolveToken ov (googleAccessTokenOf user) with
    | none =>
      simp only [syncGmail, hu, hrt]
      exact hF
    | some tok =>
      cases hlr : env.listRes with
      | error er =>
        simp only [syncGmail, hu, hrt, hlr]
        exact hF
      | ok msgsO =>
        simp only [syncGmail, hu, hrt, hlr]
        cases hL : (gmailLoop p env now uid (msgsO.getD []) 0 db).1 with
        | none => exact (gmailLoop_dbstep p env now uid (msgsO.getD []) 0 db).fresh hF
        | some count =>
          by_cases hint : (user.integrations.bind fun i => i.google).isSome
          · simp only [hint, if_true]
            exact (gmailLoop_dbstep p env now uid (msgsO.getD []) 0 db).fresh hF
          · simp only [hint, if_false, Bool.false_eq_true]
            exact (gmailLoop_dbstep p env now uid (msgsO.getD []) 0 db).fresh hF

lemma syncCalendar_fresh (env : CalendarEnv) (now : Nat) (uid : String)
    (ov : Option String) {db : DB} (hF : FreshIds db) :
    FreshIds (syncCalendar env now uid ov db).2 := by
  cases hu : findUser db uid with
  | none =>
    simp only [syncCalendar, hu]
    exact hF
  | some user =>
    cases hrt : resolveToken ov (googleAccessTokenOf user) with
    | none =>
      simp only [syncCalendar, hu, hrt]
      exact hF
    | some tok =>
      cases hlr : env.listRes with
      | error er =>
        simp only [syncCalendar, hu, hrt, hlr]
        exact hF
      | ok evO =>
        simp only [syncCalendar, hu, hrt, hlr]
        exact (calendarLoop_dbstep now uid (evO.getD []) 0 db).fresh hF

lemma syncTasks_fresh (env : TasksEnv) (now : Nat) (uid : String)
    (ov : Option String) {db : DB} (hF : FreshIds db) :
    FreshIds (syncTasks env now uid ov db).2 := by
  cases hu : findUser db uid with
  | none =>
    simp only [syncTasks, hu]
    exact hF
  | some user =>
    cases hrt : resolveToken ov (googleAccessTokenOf user) with
    | none =>
      simp only [syncTasks, hu, hrt]
      exact hF
    | some tok =>
      cases hlr : env.listsRes with
      | error er =>
        simp only [syncTasks, hu, hrt, hlr]
        exact hF
      | ok listsO =>
        simp only [syncTasks, hu, hrt, hlr]
        cases hL : (tasksOuterLoop env now uid (listsO.getD []) 0 db).1 with
        | none => exact (tasksOuterLoop_dbstep env now uid (listsO.getD []) 0 db).fresh hF
        | some count => exact (tasksOuterLoop_dbstep env now uid (listsO.getD []) 0 db).fresh hF

lemma syncTeams_fresh (env : TeamsEnv) (now : Nat) (uid : String)
    (ov : Option String) {db : DB} (hF : FreshIds db) :
    FreshIds (syncTeams env now uid ov db).2 := by
  cases hu : findUser db uid with
  | none =>
    simp only [syncTeams, hu]
    exact hF
  | some user =>
    cases hrt : resolveToken ov (microsoftAccessTokenOf user) with
    | none =>
      simp only [syncTeams, hu, hrt]
      exact hF
    | some tok =>
      cases hf : env.fetch with
      | netErr =>
        simp only [syncTeams, hu, hrt, hf]
        exact hF
      | notOk st =>
        simp only [syncTeams, hu, hrt, hf]
        exact hF
      | jsonErr =>
        simp only [syncTeams, hu, hrt, hf]
        exact hF
      | ok chatsO =>
        simp only [syncTeams, hu, hrt, hf]
        by_cases hint : (user.integrations.bind fun i => i.microsoft).isSome
        · simp only [hint, if_true]
          exact (teamsLoop_dbstep now uid (chatsO.getD []) 0 db).fresh hF
        · simp only [hint, if_false, Bool.false_eq_true]
          exact (teamsLoop_dbstep now uid (chatsO.getD []) 0 db).fresh hF

/-- C8: after the creation block run by every sync loop (resolve the import
thread, create the item, `findByIdAndUpdate` the thread), provided the
fresh-id counter is well-formed (`FreshIds`), the target thread contains the
new item's id exactly once and its `lastActivity` equals the processing
time `now` (hence is at least the time the item was processed, which is the
same clock value). The `$addToSet` update has set-insert semantics: running
the same update twice equals running it once, so no duplicate entry can
arise. `FreshIds` is preserved by the creation block and by all four sync
entry points, so the hypothesis holds at every creation point of any cycle
started from a well-formed state. -/
theorem thread_gains_item_exactly_once (db : DB) (uid : String) (now : Nat)
    (mk : Nat → NewItem) (toHigh : Bool) (p : List Char → Option Classification)
    (envG : GmailEnv) (envC : CalendarEnv) (envT : TasksEnv) (envM : TeamsEnv)
    (ov : Option String) :
    (FreshIds db →
      ∃ t', getThreadById (ingestItem db uid now mk toHigh).2.2
          (ingestItem db uid now mk toHigh).2.1 = some t' ∧
        t'.itemIds.count (ingestItem db uid now mk toHigh).1.id = 1 ∧
        t'.lastActivity = now) ∧
    (FreshIds db → FreshIds (ingestItem db uid now mk toHigh).2.2) ∧
    (∀ tid i b, workThreadFindByIdAndUpdate
        (workThreadFindByIdAndUpdate db tid i now b) tid i now b
      = workThreadFindByIdAndUpdate db tid i now b) ∧
    (FreshIds db → FreshIds (syncGmail p envG now uid ov db).2) ∧
    (FreshIds db → FreshIds (syncCalendar envC now uid ov db).2) ∧
    (FreshIds db → FreshIds (syncTasks envT now uid ov db).2) ∧
    (FreshIds db → FreshIds (syncTeams envM now uid ov db).2) :=
  ⟨fun hF => ingestItem_count_once hF,
   fun hF => ingestItem_fresh hF,
   fun tid i b => update_idempotent db tid i now b,
   fun hF => syncGmail_fresh p envG now uid ov hF,
   fun hF => syncCalendar_fresh envC now uid ov hF,
   fun hF => syncTasks_fresh envT now uid ov hF,
   fun hF => syncTeams_fresh envM now uid ov hF⟩

theorem thread_gains_item_exactly_once_witness :
    ∃ t', getThreadById
        (ingestItem db1t "u" 10 (calendarNewItem "u" { id := "e9" }) false).2.2
        (ingestItem db1t "u" 10 (calendarNewItem "u" { id := "e9" }) false).2.1 = some t' ∧
      t'.itemIds.count
        (ingestItem db1t "u" 10 (calendarNewItem "u" { id := "e9" }) false).1.id = 1 ∧
      t'.lastActivity = 10 :=
  (thread_gains_item_exactly_once db1t "u" 10 (calendarNewItem "u" { id := "e9" }) false
    parse0 gmailEnvOk calEnv0 tasksEnvOk teamsEnv0 none).1
    (by
      intro t ht x hx
      simp [db1t, thread0] at ht
      subst ht
      simp at hx)

lemma unique_ingest_google {db : DB} {uid : String} {now : Nat}
    {mk : Nat → NewItem} {b : Bool} {gid : String}
    (hU : UniqueRemoteIds db) (hex : existsGoogleItem db uid gid = false)
    (hu : ∀ tid, (mk tid).userId = uid)
    (hg : ∀ tid, (mk tid).metadata.googleId = some gid)
    (hm : ∀ tid, (mk tid).metadata.microsoftId = none) :
    UniqueRemoteIds (ingestItem db uid now mk b).2.2 := by
  have hitem_u : (ingestItem db uid now mk b).1.userId = uid := by
    rw [ingestItem_fst, createItem_userId]
    exact hu _
  have hitem_g : (ingestItem db uid now mk b).1.metadata.googleId = some gid := by
    rw [ingestItem_fst, createItem_metadata]
    exact hg _
  have hitem_m : (ingestItem db uid now mk b).1.metadata.microsoftId = none := by
    rw [ingestItem_fst, createItem_metadata]
    exact hm _
  unfold UniqueRemoteIds
  rw [ingestItem_items_append, List.pairwise_append]
  refine ⟨hU, by simp [NoIdClash], ?_⟩
  intro a ha b' hb
  simp only [List.mem_singleton] at hb
  subst hb
  intro huid2
  constructor
  · intro hga
    rw [hitem_g]
    intro heq
    exact existsGoogleItem_false_forall hex a ha ⟨by rw [huid2, hitem_u], heq⟩
  · intro hms
    rw [hitem_m]
    intro heq
    rw [heq] at hms
    simp at hms

lemma unique_ingest_microsoft {db : DB} {uid : String} {now : Nat}
    {mk : Nat → NewItem} {b : Bool} {mid : String}
    (hU : UniqueRemoteIds db) (hex : existsMicrosoftItem db uid mid = false)
    (hu : ∀ tid, (mk tid).userId = uid)
    (hm : ∀ tid, (mk tid).metadata.microsoftId = some mid)
    (hg : ∀ tid, (mk tid).metadata.googleId = none) :
    UniqueRemoteIds (ingestItem db uid now mk b).2.2 := by
  have hitem_u : (ingestItem db uid now mk b).1.userId = uid := by
    rw [ingestItem_fst, createItem_userId]
    exact hu _
  have hitem_g : (ingestItem db uid now mk b).1.metadata.googleId = none := by
    rw [ingestItem_fst, createItem_metadata]
    exact hg _
  have hitem_m : (ingestItem db uid now mk b).1.metadata.microsoftId = some mid := by
    rw [ingestItem_fst, createItem_metadata]
    exact hm _
  unfold UniqueRemoteIds
  rw [ingestItem_items_append, List.pairwise_append]
  refine ⟨hU, by simp [NoIdClash], ?_⟩
  intro a ha b' hb
  simp only [List.mem_singleton] at hb
  subst hb
  intro huid2
  constructor
  · intro hga
    rw [hitem_g]
    intro heq
    rw [heq] at hga
    simp at hga
  · intro hms
    rw [hitem_m]
    intro heq
    exact existsMicrosoftItem_false_forall hex a ha ⟨by rw [huid2, hitem_u], heq⟩

lemma gmailLoop_unique (p : List Char → Option Classification) (env : GmailEnv)
    (now : Nat) (uid : String) :
    ∀ msgs c db, UniqueRemoteIds db → UniqueRemoteIds (gmailLoop p env now uid msgs c db).2 := by
  intro msgs
  induction msgs with
  | nil => exact fun c db h => h
  | cons msg rest ih =>
    intro c db h
    simp only [gmailLoop]
    cases hd : env.details msg.id with
    | error e => exact h
    | ok d =>
      by_cases hex : existsGoogleItem db uid msg.id
      · simp only [hex, if_true]
        exact ih c db h
      · simp only [hex, if_false, Bool.false_eq_true]
        have hex' : existsGoogleItem db uid msg.id = false := by simpa using hex
        by_cases hw : (classifyAndPrioritizeEmail p (env.gen msg.id)).isWork
        · simp only [hw, if_true]
          exact ih (c + 1) _
            (unique_ingest_google h hex' (fun _ => rfl) (fun _ => rfl) (fun _ => rfl))
        · simp only [hw, if_false, Bool.false_eq_true]
          exact ih c db h

lemma calendarLoop_unique (now : Nat) (uid : String) :
    ∀ evs c db, UniqueRemoteIds db → UniqueRemoteIds (calendarLoop now uid evs c db).2 := by
  intro evs
  induction evs with
  | nil => exact fun c db h => h
  | cons e rest ih =>
    intro c db h
    simp only [calendarLoop]
    by_cases hex : existsGoogleItem db uid e.id
    · simp only [hex, if_true]
      exact ih c db h
    · simp only [hex, if_false, Bool.false_eq_true]
      have hex' : existsGoogleItem db uid e.id = false := by simpa using hex
      exact ih (c + 1) _
        (unique_ingest_google h hex' (fun _ => rfl) (fun _ => rfl) (fun _ => rfl))

lemma tasksInnerLoop_unique (now : Nat) (uid : String) (list : TaskList) :
    ∀ tasks c db, UniqueRemoteIds db →
      UniqueRemoteIds (tasksInnerLoop now uid list tasks c db).2 := by
  intro tasks
  induction tasks with
  | nil => exact fun c db h => h
  | cons task rest ih =>
    intro c db h
    simp only [tasksInnerLoop]
    by_cases hex : existsGoogleItem db uid task.id
    · simp only [hex, if_true]
      exact ih c db h
    · simp only [hex, if_false, Bool.false_eq_true]
      have hex' : existsGoogleItem db uid task.id = false := by simpa using hex
      exact ih (c + 1) _
        (unique_ingest_google h hex' (fun _ => rfl) (fun _ => rfl) (fun _ => rfl))

lemma tasksOuterLoop_unique (env : TasksEnv) (now : Nat) (uid : String) :
    ∀ lists c db, UniqueRemoteIds db →
      UniqueRemoteIds (tasksOuterLoop env now uid lists c db).2 := by
  intro lists
  induction lists with
  | nil => exact fun c db h => h
  | cons list rest ih =>
    intro c db h
    simp only [tasksOuterLoop]
    cases ht : env.tasksOf list.id with
    | error e => exact h
    | ok tasksO =>
      dsimp only
      exact ih _ _ (tasksInnerLoop_unique now uid list _ c db h)

lemma teamsLoop_unique (now : Nat) (uid : String) :
    ∀ chats c db, UniqueRemoteIds db → UniqueRemoteIds (teamsLoop now uid chats c db).2 := by
  intro chats
  induction chats with
  | nil => exact fun c db h => h
  | cons chat rest ih =>
    intro c db h
    simp only [teamsLoop]
    cases hpv : teamsPreviewContent chat with
    | none => exact ih c db h
    | some pr =>
      dsimp only
      by_cases hex : existsMicrosoftItem db uid pr.1.id
      · simp only [hex, if_true]
        exact ih c db h
      · simp only [hex, if_false, Bool.false_eq_true]
        have hex' : existsMicrosoftItem db uid pr.1.id = false := by simpa using hex
        exact ih (c + 1) _
          (unique_ingest_microsoft h hex' (fun _ => rfl) (fun _ => rfl) (fun _ => rfl))

lemma syncGmail_unique (p : List Char → Option Classification) (env : GmailEnv)
    (now : Nat) (uid : String) (ov : Option String) {db : DB}
    (h : UniqueRemoteIds db) : UniqueRemoteIds (syncGmail p env now uid ov db).2 := by
  cases hu : findUser db uid with
  | none =>
    simp only [syncGmail, hu]
    exact h
  | some user =>
    cases hrt : resolveToken ov (googleAccessTokenOf user) with
    | none =>
      simp only [syncGmail, hu, hrt]
      exact h
    | some tok =>
      cases hlr : env.listRes with
      | error er =>
        simp only [syncGmail, hu, hrt, hlr]
        exact h
      | ok msgsO =>
        simp only [syncGmail, hu, hrt, hlr]
        cases hL : (gmailLoop p env now uid (msgsO.getD []) 0 db).1 with
        | none => exact gmailLoop_unique p env now uid (msgsO.getD []) 0 db h
        | some count =>
          by_cases hint : (user.integrations.bind fun i => i.google).isSome
          · simp only [hint, if_true]
            exact gmailLoop_unique p env now uid (msgsO.getD []) 0 db h
          · simp only [hint, if_false, Bool.false_eq_true]
            exact gmailLoop_unique p env now uid (msgsO.getD []) 0 db h

lemma syncCalendar_unique (env : CalendarEnv) (now : Nat) (uid : String)
    (ov : Option String) {db : DB} (h : UniqueRemoteIds db) :
    UniqueRemoteIds (syncCalendar env now uid ov db).2 := by
  cases hu : findUser db uid with
  | none =>
    simp only [syncCalendar, hu]
    exact h
  | some user =>
    cases hrt : resolveToken ov (googleAccessTokenOf user) with
    | none =>
      simp only [syncCalendar, hu, hrt]
      exact h
    | some tok =>
      cases hlr : env.listRes with
      | error er =>
        simp only [syncCalendar, hu, hrt, hlr]
        exact h
      | ok evO =>
        simp only [syncCalendar, hu, hrt, hlr]
        exact calendarLoop_unique now uid (evO.getD []) 0 db h

lemma syncTasks_unique (env : TasksEnv) (now : Nat) (uid : String)
    (ov : Option String) {db : DB} (h : UniqueRemoteIds db) :
    UniqueRemoteIds (syncTasks env now uid ov db).2 := by
  cases hu : findUser db uid with
  | none =>
    simp only [syncTasks, hu]
    exact h
  | some user =>
    cases hrt : resolveToken ov (googleAccessTokenOf user) with
    | none =>
      simp only [syncTasks, hu, hrt]
      exact h
    | some tok =>
      cases hlr : env.listsRes with
      | error er =>
        simp only [syncTasks, hu, hrt, hlr]
        exact h
      | ok listsO =>
        simp only [syncTasks, hu, hrt, hlr]
        cases hL : (tasksOuterLoop env now uid (listsO.getD []) 0 db).1 with
        | none => exact tasksOuterLoop_unique env now uid (listsO.getD []) 0 db h
        | some count => exact tasksOuterLoop_unique env now uid (listsO.getD []) 0 db h

lemma syncTeams_unique (env : TeamsEnv) (now : Nat) (uid : String)
    (ov : Option String) {db : DB} (h : UniqueRemoteIds db) :
    UniqueRemoteIds (syncTeams env now uid ov db).2 := by
  cases hu : findUser db uid with
  | none =>
    simp only [syncTeams, hu]
    exact h
  | some user =>
    cases hrt : resolveToken ov (microsoftAccessTokenOf user) with
    | none =>
      simp only [syncTeams, hu, hrt]
      exact h
    | some tok =>
      cases hf : env.fetch with
      | netErr =>
        simp only [syncTeams, hu, hrt, hf]
        exact h
      | notOk st =>
        simp only [syncTeams, hu, hrt, hf]
        exact h
      | jsonErr =>
        simp only [syncTeams, hu, hrt, hf]
        exact h
      | ok chatsO =>
        simp only [syncTeams, hu, hrt, hf]
        by_cases hint : (user.integrations.bind fun i => i.microsoft).isSome
        · simp only [hint, if_true]
          exact teamsLoop_unique now uid (chatsO.getD []) 0 db h
        · simp only [hint, if_false, Bool.false_eq_true]
          exact teamsLoop_unique now uid (chatsO.getD []) 0 db h

lemma runCall_unique (c : SyncCall) (db : DB) (h : UniqueRemoteIds db) :
    UniqueRemoteIds (runCall c db) := by
  cases c with
  | gmail p env now uid ov => exact syncGmail_unique p env now uid ov h
  | calendar env now uid ov => exact syncCalendar_unique env now uid ov h
  | tasks env now uid ov => exact syncTasks_unique env now uid ov h
  | teams env now uid ov => exact syncTeams_unique env now uid ov h

/-- C2: the `(userId, provider-native-id)` uniqueness invariant — no two
stored WorkItems of the same user share a present `metadata.googleId` or a
present `metadata.microsoftId` — is preserved by every sequence of
sequentially executed sync invocations (any mix of the four providers, any
environments, users and override tokens): each creation is guarded by the
dedup gate on exactly that key, and within one cycle each creation is
visible to the gate for the remaining candidates. -/
theorem sync_preserves_unique_remote_ids (calls : List SyncCall) (db : DB)
    (h : UniqueRemoteIds db) : UniqueRemoteIds (runCalls calls db) := by
  induction calls generalizing db with
  | nil => exact h
  | cons c rest ih => exact ih (runCall c db) (runCall_unique c db h)

theorem sync_preserves_unique_remote_ids_witness :
    UniqueRemoteIds (runCalls
      [SyncCall.calendar calEnv0 10 "u" none,
       SyncCall.teams teamsEnv0 11 "u" none] db0) :=
  sync_preserves_unique_remote_ids _ db0 List.Pairwise.nil
